import Mathlib

/-!
Verification of the Elysium community plugin repository (submission validator
`scripts/validate.js` and the directory builder script).

The JavaScript sources are shallowly embedded below.  External effects are
modelled as injected oracles gathered in `JsEnv`:
  * `fetch`        — the global `fetch` of the runtime, as a pure map from the
                     raw URL string to an HTTP response (ok flag, status, body);
  * `parseManifest`— `JSON.parse` applied to a fetched manifest body; a thrown
                     parse error is an `Except.error` carrying the message;
  * `regexTest`    — `RegExp.prototype.test` for the dangerous-pattern table
                     (pattern source text, scanned text) — the regex engine is
                     a runtime builtin, so it is kept abstract;
  * `nameLt`       — the outcome `a.localeCompare(b) < 0` of a successful
                     `String.prototype.localeCompare` call, used by the
                     builder's sort (ICU collation, a runtime builtin); the
                     comparator's throw on an `undefined` receiver is modelled
                     separately in `compareEntries`;
  * `now`          — `new Date().toISOString()`.
JSON records are modelled as records of `Option String` / `Option (List String)`
fields (a field is `none` when absent); JS truthiness on those fields is
`truthyS` / `truthyL`.  The local plugins directory is a list of `DirFile`
(file name plus the result of reading-and-JSON-parsing the file).
-/

/-- JS truthiness of a possibly-absent string field: an absent field
(`undefined`) and the empty string are falsy, every other string is truthy. -/
def truthyS : Option String → Bool
  | none => false
  | some s => !s.isEmpty

/-- JS truthiness of a possibly-absent array field: an absent field is falsy,
any array (including the empty one) is truthy. -/
def truthyL : Option (List String) → Bool
  | none => false
  | some _ => true

/-- String interpolation of a possibly-absent string value: JS renders
`undefined` as the string "undefined". -/
def jsStr : Option String → String
  | none => "undefined"
  | some s => s

/-- `String.prototype.endsWith`, on the character-list view of strings. -/
def jsEndsWith (s suffx : String) : Bool :=
  suffx.data.isSuffixOf s.data

/-- Removal of the first occurrence of `pat` in `s`:
`String.prototype.replace(pat, '')` with a plain-string pattern. -/
def removeFirstOcc : List Char → List Char → List Char
  | [], _ => []
  | c :: cs, pat =>
    if pat.isPrefixOf (c :: cs) then (c :: cs).drop pat.length
    else c :: removeFirstOcc cs pat

/-- `filename.replace('.json', '')` — drops the first occurrence of `.json`. -/
def jsReplaceOnce (s pat : String) : String :=
  ⟨removeFirstOcc s.data pat.data⟩

/-! ## Static policy tables (verbatim from `validate.js`) -/

/-- Required fields in submission file. -/
def REQUIRED_SUBMISSION_FIELDS : List String :=
  ["id", "name", "description", "author", "repo"]

/-- Required fields in manifest.json. -/
def REQUIRED_MANIFEST_FIELDS : List String :=
  ["id", "name", "version", "minAppVersion", "author", "description", "main", "permissions"]

/-- Valid permissions. -/
def VALID_PERMISSIONS : List String :=
  ["read:goals", "read:tasks", "read:habits", "read:odysseys",
   "read:appointments", "read:reminders", "read:categories", "read:tags",
   "read:timeline", "read:settings", "read:schedules",
   "write:goals", "write:tasks", "write:habits", "write:odysseys",
   "write:appointments", "write:reminders", "write:categories", "write:tags",
   "write:timeline", "write:settings",
   "notifications", "shortcuts", "network", "clipboard", "filesystem", "theme", "customize:ui"]

/-- Dangerous permissions that require extra review. -/
def DANGEROUS_PERMISSIONS : List String :=
  ["write:goals", "write:tasks", "write:habits", "write:odysseys",
   "write:appointments", "write:reminders", "write:categories", "write:tags",
   "write:timeline", "write:settings",
   "network", "filesystem", "theme", "customize:ui"]

/-- Dangerous code patterns to check for: (regex source text, display name).
The regex engine is a runtime builtin; matching is the `regexTest` oracle. -/
def DANGEROUS_PATTERNS : List (String × String) :=
  [("\\beval\\s*\\(", "eval()"),
   ("\\bnew\\s+Function\\s*\\(", "new Function()"),
   ("document\\.write", "document.write"),
   ("innerHTML\\s*=", "innerHTML assignment"),
   ("\\bfetch\\s*\\([^)]*\\$\\\x7b", "dynamic fetch URL")]

/-! ## Data model -/

/-- A submission record (`plugins/<id>.json`), as parsed JSON; each field is
`none` when absent from the JSON object. -/
structure Submission where
  id : Option String
  name : Option String
  description : Option String
  author : Option String
  repo : Option String
deriving DecidableEq, Repr

/-- A plugin manifest (`manifest.json` of the plugin repository), as parsed
JSON; each field is `none` when absent. -/
structure Manifest where
  id : Option String
  name : Option String
  version : Option String
  minAppVersion : Option String
  author : Option String
  description : Option String
  main : Option String
  permissions : Option (List String)
  authorUrl : Option String
  helpUrl : Option String
  fundingUrl : Option String
  supportLinks : Option (List String)
  tags : Option (List String)
  category : Option String
deriving DecidableEq, Repr

/-- An HTTP response as seen by the scripts: `response.ok`, `response.status`
and the body text `await response.text()`. -/
structure FetchResponse where
  ok : Bool
  status : Nat
  text : String
deriving DecidableEq, Repr

/-- Decidable equality for `Except`, needed to state and evaluate facts about
fallible steps. -/
instance exceptDecEq {α β : Type} [DecidableEq α] [DecidableEq β] :
    DecidableEq (Except α β) := fun a b =>
  match a, b with
  | .ok x, .ok y => if h : x = y then .isTrue (by rw [h]) else .isFalse (by simp [h])
  | .error x, .error y => if h : x = y then .isTrue (by rw [h]) else .isFalse (by simp [h])
  | .ok _, .error _ => .isFalse (by simp)
  | .error _, .ok _ => .isFalse (by simp)

/-- A file of the local plugins directory: its name and the outcome of
`JSON.parse(fs.readFileSync(...))` (`Except.error` = the read or parse threw,
carrying the runtime message). -/
structure DirFile where
  name : String
  parsed : Except String Submission
deriving DecidableEq, Repr

/-- The runtime oracles (see the module docstring). -/
structure JsEnv where
  fetch : String → FetchResponse
  parseManifest : String → Except String Manifest
  regexTest : String → String → Bool
  nameLt : String → String → Bool
  now : String

/-- One entry of the `checks` list of a `ValidationResult`. -/
structure Check where
  name : String
  passed : Bool
  details : Option String
deriving DecidableEq, Repr

/-- The `ValidationResult` accumulator class of `validate.js`. -/
structure ValidationResult where
  pluginId : String
  passed : Bool
  checks : List Check
  warnings : List String
  errors : List String
  manifest : Option Manifest
deriving DecidableEq, Repr

/-- `new ValidationResult(pluginId)`. -/
def ValidationResult.init (pluginId : String) : ValidationResult :=
  ⟨pluginId, true, [], [], [], none⟩

/-- `addCheck(name, passed, details)`: pushes the check and clears the overall
flag when the check failed. -/
def ValidationResult.addCheck (r : ValidationResult) (name : String) (passed : Bool)
    (details : Option String) : ValidationResult :=
  { r with checks := r.checks ++ [⟨name, passed, details⟩], passed := r.passed && passed }

/-- `addWarning(message)`: pushes the message; the flag is untouched. -/
def ValidationResult.addWarning (r : ValidationResult) (message : String) : ValidationResult :=
  { r with warnings := r.warnings ++ [message] }

/-- `addError(message)`: pushes the message and clears the overall flag. -/
def ValidationResult.addError (r : ValidationResult) (message : String) : ValidationResult :=
  { r with errors := r.errors ++ [message], passed := false }

/-! ## URL parser (`parseGitHubUrl`, identical in both scripts) -/

/-- The literal part of the URL regex: `github\.com\/`. -/
def githubMarker : List Char := "github.com/".data

/-- Attempt of the capture groups `([^\/]+)\/([^\/]+)`, on the text that
follows the `github.com/` marker.  Both groups are greedy runs of non-slash
characters and must be non-empty. -/
def ghAfter (cs : List Char) : Option (String × String) :=
  let seg1 := cs.takeWhile (fun c => c != '/')
  let rest := cs.dropWhile (fun c => c != '/')
  match seg1, rest with
  | [], _ => none
  | _ :: _, [] => none
  | _ :: _, _ :: rest2 =>
    let seg2 := rest2.takeWhile (fun c => c != '/')
    if seg2.isEmpty then none else some (⟨seg1⟩, ⟨seg2⟩)

/-- Left-to-right scan of `url.match(/github\.com\/([^\/]+)\/([^\/]+)/)`:
the first start position where the whole pattern matches wins. -/
def ghScan : List Char → Option (String × String)
  | [] => none
  | c :: cs =>
    if githubMarker.isPrefixOf (c :: cs) then
      match ghAfter ((c :: cs).drop githubMarker.length) with
      | some r => some r
      | none => ghScan cs
    else ghScan cs

/-- `repo.replace(/\.git$/, '')`: strips one trailing `.git`. -/
def stripGitSfx (s : String) : String :=
  if jsEndsWith s ".git" then ⟨s.data.take (s.data.length - 4)⟩ else s

/-- `parseGitHubUrl(url)`: owner and repository name, or `none` ("not
parseable") when the regex does not match. -/
def parseGitHubUrl (url : String) : Option (String × String) :=
  (ghScan url.data).map (fun p => (p.1, stripGitSfx p.2))

/-- The raw-content URL built by both fetch helpers. -/
def rawUrl (owner repo branch filePath : String) : String :=
  "https://raw.githubusercontent.com/" ++ owner ++ "/" ++ repo ++ "/" ++ branch ++ "/" ++ filePath

/-! ## Remote fetcher (`fetchFromGitHub` of `validate.js`) -/

/-- Failures thrown by `fetchFromGitHub`. -/
inductive FetchErr where
  | invalidUrl (url : String)
  | httpError (filePath : String) (status : Nat)
deriving DecidableEq, Repr

/-- `e.message` of a `FetchErr`, as built by the `throw new Error(...)` sites. -/
def FetchErr.message : FetchErr → String
  | .invalidUrl u => "Invalid GitHub URL: " ++ u
  | .httpError p s => "Failed to fetch " ++ p ++ ": " ++ toString s

/-- `fetchFromGitHub(repoUrl, filePath, branch)`.  On a non-ok response with
`branch === 'main'` the source recurses once with branch `'master'`; since
`'master' ≠ 'main'` that call cannot recurse further, so the single recursive
call is inlined here (keeping the definition structurally recursive-free and
kernel-evaluable). -/
def fetchFromGitHub (fetch : String → FetchResponse) (repoUrl filePath branch : String) :
    Except FetchErr String :=
  match parseGitHubUrl repoUrl with
  | none => .error (.invalidUrl repoUrl)
  | some p =>
    let resp := fetch (rawUrl p.1 p.2 branch filePath)
    if resp.ok then .ok resp.text
    else if branch = "main" then
      match parseGitHubUrl repoUrl with
      | none => .error (.invalidUrl repoUrl)
      | some q =>
        let resp2 := fetch (rawUrl q.1 q.2 "master" filePath)
        if resp2.ok then .ok resp2.text
        else .error (.httpError filePath resp2.status)
    else .error (.httpError filePath resp.status)

/-- `fetchFromGitHub` instrumented with the list of raw URLs actually requested
(in request order), to state how many attempts are made. -/
def fetchFromGitHubT (fetch : String → FetchResponse) (repoUrl filePath branch : String) :
    Except FetchErr String × List String :=
  match parseGitHubUrl repoUrl with
  | none => (.error (.invalidUrl repoUrl), [])
  | some p =>
    let u := rawUrl p.1 p.2 branch filePath
    let resp := fetch u
    if resp.ok then (.ok resp.text, [u])
    else if branch = "main" then
      match parseGitHubUrl repoUrl with
      | none => (.error (.invalidUrl repoUrl), [u])
      | some q =>
        let u2 := rawUrl q.1 q.2 "master" filePath
        let resp2 := fetch u2
        if resp2.ok then (.ok resp2.text, [u, u2])
        else (.error (.httpError filePath resp2.status), [u, u2])
    else (.error (.httpError filePath resp.status), [u])

/-! ## Remote fetcher of the builder (`fetchManifest` of the builder script) -/

/-- `fetchManifest(repoUrl, branch)` of the directory builder: same two-attempt
branch policy, but the body is `JSON.parse`d inside the function, and the error
messages are the builder's own.  The single possible recursive call
(`main → master`) is inlined exactly as in `fetchFromGitHub`. -/
def fetchManifest (env : JsEnv) (repoUrl branch : String) : Except String Manifest :=
  match parseGitHubUrl repoUrl with
  | none => .error ("Invalid GitHub URL: " ++ repoUrl)
  | some p =>
    let resp := env.fetch (rawUrl p.1 p.2 branch "manifest.json")
    if resp.ok then env.parseManifest resp.text
    else if branch = "main" then
      match parseGitHubUrl repoUrl with
      | none => .error ("Invalid GitHub URL: " ++ repoUrl)
      | some q =>
        let resp2 := env.fetch (rawUrl q.1 q.2 "master" "manifest.json")
        if resp2.ok then env.parseManifest resp2.text
        else .error ("Failed to fetch manifest: " ++ toString resp2.status)
    else .error ("Failed to fetch manifest: " ++ toString resp.status)

/-- `fetchManifest` instrumented with the list of raw URLs requested. -/
def fetchManifestT (env : JsEnv) (repoUrl branch : String) :
    Except String Manifest × List String :=
  match parseGitHubUrl repoUrl with
  | none => (.error ("Invalid GitHub URL: " ++ repoUrl), [])
  | some p =>
    let u := rawUrl p.1 p.2 branch "manifest.json"
    let resp := env.fetch u
    if resp.ok then (env.parseManifest resp.text, [u])
    else if branch = "main" then
      match parseGitHubUrl repoUrl with
      | none => (.error ("Invalid GitHub URL: " ++ repoUrl), [u])
      | some q =>
        let u2 := rawUrl q.1 q.2 "master" "manifest.json"
        let resp2 := env.fetch u2
        if resp2.ok then (env.parseManifest resp2.text, [u, u2])
        else (.error ("Failed to fetch manifest: " ++ toString resp2.status), [u, u2])
    else (.error ("Failed to fetch manifest: " ++ toString resp.status), [u])

/-! ## Format validators -/

/-- The character class `[a-z0-9]`. -/
def isLowerDigit (c : Char) : Bool :=
  ('a' ≤ c && c ≤ 'z') || ('0' ≤ c && c ≤ '9')

/-- Matcher for the tail of `[a-z0-9][a-z0-9-]*[a-z0-9]`: middle characters in
`[a-z0-9-]`, the final character in `[a-z0-9]`. -/
def midLast : List Char → Bool
  | [] => false
  | [c] => isLowerDigit c
  | c :: cs => (isLowerDigit c || c = '-') && midLast cs

/-- Anchored matcher of `/^[a-z0-9][a-z0-9-]*[a-z0-9]$|^[a-z0-9]$/`. -/
def partPattern : List Char → Bool
  | [] => false
  | [c] => isLowerDigit c
  | c :: cs => isLowerDigit c && midLast cs

/-- `id.split('.')` of JS, on the character-list view: split at every `.`;
the empty string yields one empty part, and leading, trailing or adjacent
separators yield empty parts. -/
def splitOnDot : List Char → List (List Char)
  | [] => [[]]
  | c :: cs =>
    if c = '.' then [] :: splitOnDot cs
    else
      match splitOnDot cs with
      | [] => [[c]]
      | p :: ps => (c :: p) :: ps

/-- `isValidPluginId(id)`: at least two dot-separated parts, each matching
`partPattern`. -/
def isValidPluginId (id : String) : Bool :=
  let parts := splitOnDot id.data
  decide (2 ≤ parts.length) && parts.all partPattern

/-- The character class `\d`. -/
def isDigitCh (c : Char) : Bool := '0' ≤ c && c ≤ '9'

/-- The character class `[a-zA-Z0-9.-]` of the semver suffix groups. -/
def isSemverChar (c : Char) : Bool :=
  isDigitCh c || ('a' ≤ c && c ≤ 'z') || ('A' ≤ c && c ≤ 'Z') || c = '.' || c = '-'

/-- Matcher for the optional build group `(\+[a-zA-Z0-9.-]+)?$`: either the end
of input, or `+` followed by a non-empty class run reaching the end.  (The
greedy run and the optional group admit no other successful backtracking:
`+` is outside the class, so shortening the run or skipping the group leaves a
character that neither `$` nor anything else can consume.) -/
def semverBuild (cs : List Char) : Bool :=
  match cs with
  | [] => true
  | c :: rest =>
    c = '+' && !(rest.takeWhile isSemverChar).isEmpty
      && (rest.dropWhile isSemverChar).isEmpty

/-- Matcher for `(-[a-zA-Z0-9.-]+)?(\+[a-zA-Z0-9.-]+)?$` (same determinism
argument as `semverBuild`: `-` and `+` are handled greedily and the class
excludes `+`). -/
def semverTail (cs : List Char) : Bool :=
  match cs with
  | [] => true
  | c :: rest =>
    if c = '-' then
      !(rest.takeWhile isSemverChar).isEmpty && semverBuild (rest.dropWhile isSemverChar)
    else semverBuild cs

/-- Anchored matcher of `/^\d+\.\d+\.\d+(-[a-zA-Z0-9.-]+)?(\+[a-zA-Z0-9.-]+)?$/`:
three greedy digit runs separated by literal dots (digits cannot match `.`, so
no backtracking arises), then the optional suffix groups. -/
def semverMatch (cs : List Char) : Bool :=
  let a := cs.takeWhile isDigitCh
  match cs.dropWhile isDigitCh with
  | [] => false
  | c1 :: r2 =>
    if a.isEmpty then false
    else if c1 = '.' then
      let b := r2.takeWhile isDigitCh
      match r2.dropWhile isDigitCh with
      | [] => false
      | c2 :: r4 =>
        if b.isEmpty then false
        else if c2 = '.' then
          let c := r4.takeWhile isDigitCh
          if c.isEmpty then false else semverTail (r4.dropWhile isDigitCh)
        else false
    else false

/-- `isValidSemver(version)`. -/
def isValidSemver (version : String) : Bool :=
  semverMatch version.data

/-! ## Duplicate check -/

/-- `checkDuplicate(pluginId, pluginsDir)`: scan every `.json` file of the
plugins directory; a file whose JSON parses and whose `id` strictly equals
`pluginId` is a duplicate; unparseable files are skipped. -/
def checkDuplicate (pluginId : String) (pluginsDir : List DirFile) : Bool :=
  (pluginsDir.filter (fun f => jsEndsWith f.name ".json")).any
    (fun f => match f.parsed with
      | .ok content => content.id = some pluginId
      | .error _ => false)

/-! ## Warning and detail strings of the validator -/

/-- The duplicate-identifier warning. -/
def dupWarnStr : String :=
  "Plugin ID already exists - this will update the existing entry"

/-- The combined dangerous-permissions warning for the filtered list. -/
def dangerWarnStr (l : List String) : String :=
  "Plugin requests dangerous permissions: `" ++ String.intercalate "`, `" l
    ++ "` - please document why these are needed"

/-- Warning for a missing `helpUrl`. -/
def helpUrlWarnStr : String := "Consider adding a `helpUrl` for documentation"

/-- Warning for a missing `category`. -/
def categoryWarnStr : String := "Consider adding a `category` for better discoverability"

/-- Warning for more than five permissions. -/
def countWarnStr (n : Nat) : String :=
  "Plugin requests " ++ toString n ++ " permissions - consider if all are necessary"

/-- Warning for a main script over 1 MiB; `(len/1024).toFixed(0)` rounds to the
nearest integer (ties away from zero), which on these exact dyadic quotients is
`(len + 512) / 1024` in integer arithmetic. -/
def sizeWarnStr (len : Nat) : String :=
  "Main script is large (" ++ toString ((len + 512) / 1024) ++ "KB) - consider code splitting"

/-- Warning for a matched dangerous source pattern. -/
def patternWarnStr (nm : String) : String :=
  "Found potentially dangerous pattern: `" ++ nm ++ "` - please document its use"

/-! ## The validation pipeline (`validatePlugin`)

The source is one sequential function with early returns; it is rendered here
as named stages in source order (check numbers refer to the comments of
`validate.js`).  `submissionMissingFields` / `manifestMissingFields` render the
`REQUIRED_*.filter(f => !x[f])` dynamic-field idiom field by field, preserving
the table order. -/

/-- `REQUIRED_SUBMISSION_FIELDS.filter(f => !submission[f])`. -/
def submissionMissingFields (s : Submission) : List String :=
  (if truthyS s.id then [] else ["id"])
    ++ (if truthyS s.name then [] else ["name"])
    ++ (if truthyS s.description then [] else ["description"])
    ++ (if truthyS s.author then [] else ["author"])
    ++ (if truthyS s.repo then [] else ["repo"])

/-- `REQUIRED_MANIFEST_FIELDS.filter(f => !manifest[f])`. -/
def manifestMissingFields (m : Manifest) : List String :=
  (if truthyS m.id then [] else ["id"])
    ++ (if truthyS m.name then [] else ["name"])
    ++ (if truthyS m.version then [] else ["version"])
    ++ (if truthyS m.minAppVersion then [] else ["minAppVersion"])
    ++ (if truthyS m.author then [] else ["author"])
    ++ (if truthyS m.description then [] else ["description"])
    ++ (if truthyS m.main then [] else ["main"])
    ++ (if truthyL m.permissions then [] else ["permissions"])

/-- The permissions of a manifest declared dangerous:
`manifest.permissions?.filter(p => DANGEROUS_PERMISSIONS.includes(p)) || []`. -/
def dangerousUsed (m : Manifest) : List String :=
  (m.permissions.getD []).filter (fun p => DANGEROUS_PERMISSIONS.contains p)

/-- Check 8: IDs match (non-blocking). -/
def idsMatchStage (sub : Submission) (m : Manifest) (r : ValidationResult) : ValidationResult :=
  if m.id ≠ sub.id then
    r.addCheck "IDs match" false
      (some ("submission: " ++ jsStr sub.id ++ ", manifest: " ++ jsStr m.id))
  else r.addCheck "IDs match" true none

/-- Check 9: Version format (non-blocking); note the passing branch records the
version string as the check detail. -/
def versionStage (m : Manifest) (r : ValidationResult) : ValidationResult :=
  if !isValidSemver (jsStr m.version) then
    r.addCheck "Version format" false (some (jsStr m.version ++ " is not valid semver"))
  else r.addCheck "Version format" true (some (jsStr m.version))

/-- Check 10: Permissions are valid (non-blocking). -/
def permsStage (m : Manifest) (r : ValidationResult) : ValidationResult :=
  let invalid := (m.permissions.getD []).filter (fun p => !VALID_PERMISSIONS.contains p)
  if invalid ≠ [] then
    r.addCheck "Valid permissions" false (some ("invalid: " ++ String.intercalate ", " invalid))
  else r.addCheck "Valid permissions" true none

/-- Dangerous-permission advisory: one combined warning. -/
def dangerStage (m : Manifest) (r : ValidationResult) : ValidationResult :=
  let used := dangerousUsed m
  if used ≠ [] then r.addWarning (dangerWarnStr used) else r

/-- Missing `helpUrl` advisory. -/
def helpUrlStage (m : Manifest) (r : ValidationResult) : ValidationResult :=
  if !truthyS m.helpUrl then r.addWarning helpUrlWarnStr else r

/-- Missing `category` advisory. -/
def categoryStage (m : Manifest) (r : ValidationResult) : ValidationResult :=
  if !truthyS m.category then r.addWarning categoryWarnStr else r

/-- Permission-count advisory (`manifest.permissions?.length > 5`; an absent
list yields `undefined > 5`, which is false). -/
def countStage (m : Manifest) (r : ValidationResult) : ValidationResult :=
  if 5 < (m.permissions.getD []).length then
    r.addWarning (countWarnStr (m.permissions.getD []).length)
  else r

/-- Source scan: fetch the entry file, warn on size and on each matched
dangerous pattern; a fetch failure is the non-blocking failed check
`Main script accessible`. -/
def securityStage (env : JsEnv) (sub : Submission) (m : Manifest) (r : ValidationResult) :
    ValidationResult :=
  match fetchFromGitHub env.fetch (jsStr sub.repo) (jsStr m.main) "main" with
  | .ok mainJs =>
    let r := if 1024 * 1024 < mainJs.length then r.addWarning (sizeWarnStr mainJs.length) else r
    DANGEROUS_PATTERNS.foldl
      (fun r pr => if env.regexTest pr.1 mainJs then r.addWarning (patternWarnStr pr.2) else r) r
  | .error e => r.addCheck "Main script accessible" false (some e.message)

/-- Checks 7–10 plus the advisory warnings and the source scan, entered once
the manifest has been fetched and parsed.  Check 7 (required manifest fields)
is blocking. -/
def manifestChecksStage (env : JsEnv) (sub : Submission) (m : Manifest) (r : ValidationResult) :
    ValidationResult :=
  let missing := manifestMissingFields m
  if missing ≠ [] then
    r.addCheck "Manifest valid" false (some ("missing: " ++ String.intercalate ", " missing))
  else
    securityStage env sub m
      (countStage m (categoryStage m (helpUrlStage m (dangerStage m
        (permsStage m (versionStage m (idsMatchStage sub m
          (r.addCheck "Manifest valid" true none))))))))

/-- Check 6: fetch `manifest.json` and `JSON.parse` it (one `try` block in the
source, so a fetch error and a parse error land in the same failed
`Repo accessible` check, which is blocking); on success the result's manifest
reference is set and the pipeline continues. -/
def fetchManifestStage (env : JsEnv) (sub : Submission) (r : ValidationResult) :
    ValidationResult :=
  match fetchFromGitHub env.fetch (jsStr sub.repo) "manifest.json" "main" with
  | .error e => r.addCheck "Repo accessible" false (some e.message)
  | .ok text =>
    match env.parseManifest text with
    | .error msg => r.addCheck "Repo accessible" false (some msg)
    | .ok m =>
      manifestChecksStage env sub m
        { (r.addCheck "Repo accessible" true none).addCheck "Manifest found" true none with
            manifest := some m }

/-- `validatePlugin(submissionPath, pluginsDir)`: `filename` is the base name
of the submission path, `content` the outcome of reading-and-parsing it, and
`pluginsDir` the listing of the plugins directory. -/
def validatePlugin (env : JsEnv) (filename : String) (content : Except String Submission)
    (pluginsDir : List DirFile) : ValidationResult :=
  let r0 := ValidationResult.init (jsReplaceOnce filename ".json")
  match content with
  | .error msg => r0.addCheck "Valid JSON" false (some msg)
  | .ok sub =>
    let r := r0.addCheck "Valid JSON" true none
    let missing := submissionMissingFields sub
    if missing ≠ [] then
      r.addCheck "Required fields" false (some ("missing: " ++ String.intercalate ", " missing))
    else
      let r := r.addCheck "Required fields" true none
      let r := { r with pluginId := jsStr sub.id }
      if !isValidPluginId (jsStr sub.id) then
        r.addCheck "Plugin ID format" false
          (some "must be reverse domain notation (e.g., com.author.name)")
      else
        let r := r.addCheck "Plugin ID format" true none
        let expected := jsStr sub.id ++ ".json"
        let r :=
          if filename ≠ expected then
            r.addCheck "Filename matches ID" false (some ("expected " ++ expected))
          else r.addCheck "Filename matches ID" true none
        let r :=
          if checkDuplicate (jsStr sub.id) pluginsDir then r.addWarning dupWarnStr else r
        fetchManifestStage env sub r

/-! ## The directory builder (`buildDirectory`) -/

/-- One entry of the builder's error list: `{ file, error }`. -/
structure BuildError where
  file : String
  error : String
deriving DecidableEq, Repr

/-- A directory entry as built by the builder; optional manifest fields are
included only when truthy (the `...(manifest.x && { x: manifest.x })` spreads),
and required-but-absent manifest fields stay absent (`none`) since the builder
performs no validation. -/
structure DirectoryEntry where
  id : Option String
  name : Option String
  description : Option String
  author : Option String
  version : Option String
  minAppVersion : Option String
  repo : Option String
  permissions : List String
  authorUrl : Option String
  helpUrl : Option String
  fundingUrl : Option String
  supportLinks : Option (List String)
  tags : Option (List String)
  category : Option String
  updatedAt : String
deriving DecidableEq, Repr

/-- The final directory document `{ version: 1, generatedAt, plugins }`. -/
structure Directory where
  version : Nat
  generatedAt : String
  plugins : List DirectoryEntry
deriving DecidableEq, Repr

/-- The projection of one manifest (plus the submission's repo URL) into a
directory entry. -/
def mkEntry (env : JsEnv) (sub : Submission) (m : Manifest) : DirectoryEntry where
  id := m.id
  name := m.name
  description := m.description
  author := m.author
  version := m.version
  minAppVersion := m.minAppVersion
  repo := sub.repo
  permissions := m.permissions.getD []
  authorUrl := if truthyS m.authorUrl then m.authorUrl else none
  helpUrl := if truthyS m.helpUrl then m.helpUrl else none
  fundingUrl := if truthyS m.fundingUrl then m.fundingUrl else none
  supportLinks := if truthyL m.supportLinks then m.supportLinks else none
  tags := if truthyL m.tags then m.tags else none
  category := if truthyS m.category then m.category else none
  updatedAt := env.now

/-- The per-file body of the builder's loop (the content of its `try` block):
read and parse the submission, fetch the manifest, project the entry.  An
absent `repo` field makes `url.match` throw a `TypeError` inside the `try`;
its runtime message is modelled by the literal below. -/
def processFile (env : JsEnv) (f : DirFile) : Except String DirectoryEntry :=
  match f.parsed with
  | .error e => .error e
  | .ok sub =>
    match sub.repo with
    | none => .error "Cannot read properties of undefined (reading 'match')"
    | some url =>
      match fetchManifest env url "main" with
      | .error e => .error e
      | .ok m => .ok (mkEntry env sub m)

/-- One call of the builder's sort comparator
`(a, b) => a.name.localeCompare(b.name)`.  The builder validates nothing, so
`a.name` can be `undefined` (a manifest that parses but lacks `name`); calling
`.localeCompare` on an `undefined` receiver throws a TypeError (message
modelled by the literal below).  In the *argument* position an `undefined`
name is merely coerced to the string `"undefined"`.  The result of a
successful ICU comparison is the `nameLt` oracle (`a.name.localeCompare
(b.name) < 0`). -/
def compareEntries (env : JsEnv) (a b : DirectoryEntry) : Except String Bool :=
  match a.name with
  | none => .error "Cannot read properties of undefined (reading 'localeCompare')"
  | some na => .ok (env.nameLt na (jsStr b.name))

/-- Stable insertion of `x` into an already-placed list, calling the
comparator with `x` as the receiver (as in the binary-insertion pass of the
common engines' sort, where the element being placed is the first comparator
argument); `x` lands after every already-placed `y` it does not strictly
precede.  A thrown comparator TypeError propagates. -/
def insertEntry (env : JsEnv) (x : DirectoryEntry) :
    List DirectoryEntry → Except String (List DirectoryEntry)
  | [] => .ok [x]
  | y :: ys =>
    match compareEntries env x y with
    | .error e => .error e
    | .ok true => .ok (x :: y :: ys)
    | .ok false =>
      match insertEntry env x ys with
      | .error e => .error e
      | .ok zs => .ok (y :: zs)

/-- The builder's sort: `plugins.sort((a, b) => a.name.localeCompare(b.name))`
(stable in modern runtimes, hence a stable insertion model).  The exact
comparison sequence of a JS engine's sort is implementation-defined; what is
engine-independent is that an empty or one-element array performs no
comparator calls, and that a comparison whose receiver has an `undefined`
`name` throws.  We fix the standard left-to-right insertion order, under
which each element after the first is placed as the comparator receiver — so
an entry without a `name` throws exactly when it has to be compared at all. -/
def sortPlugins (env : JsEnv) (l : List DirectoryEntry) :
    Except String (List DirectoryEntry) :=
  l.foldl
    (fun acc x =>
      match acc with
      | .error e => .error e
      | .ok s => insertEntry env x s)
    (.ok [])

/-- `buildDirectory()`: process every `.json` file of the plugins directory,
collecting successes and per-file errors, then sort and emit the document.
The source returns the `{ plugins, errors }` object; a comparator TypeError
thrown by the sort escapes the function into the top-level `.catch`, the
process exits non-zero and no `plugins.json` is written.  The embedding keeps
the per-file error list collected by the loop as the second component (on the
throw path the source's caller never observes it) and delivers the document —
or the escaping TypeError — as the first. -/
def buildDirectory (env : JsEnv) (allFiles : List DirFile) :
    Except String Directory × List BuildError :=
  let files := allFiles.filter (fun f => jsEndsWith f.name ".json")
  let step := files.foldl
    (fun (acc : List DirectoryEntry × List BuildError) f =>
      match processFile env f with
      | .ok p => (acc.1 ++ [p], acc.2)
      | .error e => (acc.1, acc.2 ++ [⟨f.name, e⟩]))
    ([], [])
  (match sortPlugins env step.1 with
   | .error e => .error e
   | .ok sorted => .ok ⟨1, env.now, sorted⟩,
   step.2)

/-- Rendering of an optional regex group with its marker character: `optPart m
(some xs)` is `m :: xs`, `optPart m none` is the empty match. -/
def optPart (mark : Char) : Option (List Char) → List Char
  | none => []
  | some xs => mark :: xs

/-- Side conditions of an optional semver suffix group: when present, its body
is a non-empty run of `[a-zA-Z0-9.-]` characters. -/
def optRunOk : Option (List Char) → Prop
  | none => True
  | some xs => xs ≠ [] ∧ ∀ c ∈ xs, isSemverChar c = true

/-! ### Concrete fixtures used by witnesses and counterexamples -/

/-- The submission of spec Example 1. -/
def exSub : Submission :=
  ⟨some "com.a.b", some "B", some "d", some "A", some "https://github.com/a/b"⟩

/-- The manifest of spec Example 1 (`permissions: ["read:goals", "network"]`). -/
def exManifest1 : Manifest :=
  { id := some "com.a.b", name := some "B", version := some "1.0.0",
    minAppVersion := some "1.0.0", author := some "A", description := some "d",
    main := some "main.js", permissions := some ["read:goals", "network"],
    authorUrl := none, helpUrl := none, fundingUrl := none,
    supportLinks := none, tags := none, category := none }

/-- A manifest whose `id` differs from `exSub`'s. -/
def manifestOtherId : Manifest := { exManifest1 with id := some "org.other.plugin" }

/-- An environment where every fetch succeeds and the manifest parses to
`exManifest1`; the pattern scan matches nothing. -/
def envOk : JsEnv :=
  { fetch := fun _ => ⟨true, 200, "MANIFEST"⟩,
    parseManifest := fun _ => Except.ok exManifest1,
    regexTest := fun _ _ => false,
    nameLt := fun _ _ => false,
    now := "2026-01-01T00:00:00.000Z" }

/-- Like `envOk` but the manifest parses to `manifestOtherId`. -/
def envOther : JsEnv := { envOk with parseManifest := fun _ => Except.ok manifestOtherId }

/-- An environment where every fetch fails with HTTP 404. -/
def envBad : JsEnv := { envOk with fetch := fun _ => ⟨false, 404, ""⟩ }

/-- The plugins-directory file holding `exSub` itself. -/
def selfFile : DirFile := ⟨"com.a.b.json", Except.ok exSub⟩

/-- A manifest that parses as the empty JSON object: every field absent.
The builder performs no validation, so it is still projected into an entry. -/
def emptyManifest : Manifest :=
  { id := none, name := none, version := none, minAppVersion := none,
    author := none, description := none, main := none, permissions := none,
    authorUrl := none, helpUrl := none, fundingUrl := none,
    supportLinks := none, tags := none, category := none }

/-- A second well-formed submission, pointing at the repository `z/z`. -/
def subZ : Submission :=
  ⟨some "com.z.z", some "Z", some "d", some "A", some "https://github.com/z/z"⟩

/-- An environment where both repositories respond: `a/b` serves a complete
manifest, `z/z` serves the body that parses to `emptyManifest`. -/
def envCrash : JsEnv :=
  { fetch := fun u =>
      if u = rawUrl "a" "b" "main" "manifest.json" then ⟨true, 200, "MA"⟩
      else ⟨true, 200, "MZ"⟩,
    parseManifest := fun t => if t = "MA" then Except.ok exManifest1 else Except.ok emptyManifest,
    regexTest := fun _ _ => false,
    nameLt := fun _ _ => false,
    now := "2026-01-01T00:00:00.000Z" }

/-- The two plugins-directory files of the C1 failing input: a fully valid
submission followed by one whose manifest parses but has no `name`. -/
def fileA : DirFile := ⟨"com.a.b.json", Except.ok exSub⟩

/-- See `fileA`. -/
def fileZ : DirFile := ⟨"com.z.z.json", Except.ok subZ⟩

/-! ### Stage deltas

Every stage of `validatePlugin` from the duplicate warning onward only appends
checks and warnings, never touches the error list, and can only and-in a flag
and overwrite the manifest reference.  `StageDelta` captures such an effect;
each stage's delta is computed below and proved (in the theorems) to describe
the stage exactly.  This factorization is what makes the non-blocking /
warning-only claims provable compositionally. -/

/-- The effect of a pipeline stage on a `ValidationResult`. -/
structure StageDelta where
  dc : List Check
  dw : List String
  ok : Bool
  mset : Option Manifest

/-- Application of a stage effect. -/
def applyDelta (d : StageDelta) (r : ValidationResult) : ValidationResult :=
  { pluginId := r.pluginId
    passed := r.passed && d.ok
    checks := r.checks ++ d.dc
    warnings := r.warnings ++ d.dw
    errors := r.errors
    manifest := match d.mset with | some m => some m | none => r.manifest }

/-- Sequential composition of stage effects. -/
def dComp (d1 d2 : StageDelta) : StageDelta :=
  ⟨d1.dc ++ d2.dc, d1.dw ++ d2.dw, d1.ok && d2.ok,
   match d2.mset with | some m => some m | none => d1.mset⟩

/-- The effect of a single `addCheck`. -/
def dOfCheck (name : String) (passed : Bool) (details : Option String) : StageDelta :=
  ⟨[⟨name, passed, details⟩], [], passed, none⟩

/-- The effect of a single `addWarning`. -/
def dOfWarn (message : String) : StageDelta := ⟨[], [message], true, none⟩

/-- The empty effect. -/
def dNeutral : StageDelta := ⟨[], [], true, none⟩

/-- Delta of `idsMatchStage`. -/
def idsMatchDelta (sub : Submission) (m : Manifest) : StageDelta :=
  if m.id ≠ sub.id then
    dOfCheck "IDs match" false
      (some ("submission: " ++ jsStr sub.id ++ ", manifest: " ++ jsStr m.id))
  else dOfCheck "IDs match" true none

/-- Delta of `versionStage`. -/
def versionDelta (m : Manifest) : StageDelta :=
  if !isValidSemver (jsStr m.version) then
    dOfCheck "Version format" false (some (jsStr m.version ++ " is not valid semver"))
  else dOfCheck "Version format" true (some (jsStr m.version))

/-- Delta of `permsStage`. -/
def permsDelta (m : Manifest) : StageDelta :=
  let invalid := (m.permissions.getD []).filter (fun p => !VALID_PERMISSIONS.contains p)
  if invalid ≠ [] then
    dOfCheck "Valid permissions" false (some ("invalid: " ++ String.intercalate ", " invalid))
  else dOfCheck "Valid permissions" true none

/-- Delta of `dangerStage`. -/
def dangerDelta (m : Manifest) : StageDelta :=
  if dangerousUsed m ≠ [] then dOfWarn (dangerWarnStr (dangerousUsed m)) else dNeutral

/-- Delta of `helpUrlStage`. -/
def helpUrlDelta (m : Manifest) : StageDelta :=
  if !truthyS m.helpUrl then dOfWarn helpUrlWarnStr else dNeutral

/-- Delta of `categoryStage`. -/
def categoryDelta (m : Manifest) : StageDelta :=
  if !truthyS m.category then dOfWarn categoryWarnStr else dNeutral

/-- Delta of `countStage`. -/
def countDelta (m : Manifest) : StageDelta :=
  if 5 < (m.permissions.getD []).length then
    dOfWarn (countWarnStr (m.permissions.getD []).length)
  else dNeutral

/-- Delta of `securityStage`. -/
def securityDelta (env : JsEnv) (sub : Submission) (m : Manifest) : StageDelta :=
  match fetchFromGitHub env.fetch (jsStr sub.repo) (jsStr m.main) "main" with
  | .ok mainJs =>
    ⟨[],
     (if 1024 * 1024 < mainJs.length then [sizeWarnStr mainJs.length] else [])
       ++ DANGEROUS_PATTERNS.filterMap
            (fun pr => if env.regexTest pr.1 mainJs then some (patternWarnStr pr.2) else none),
     true, none⟩
  | .error e => dOfCheck "Main script accessible" false (some e.message)

/-- Delta of `manifestChecksStage`. -/
def manifestChecksDelta (env : JsEnv) (sub : Submission) (m : Manifest) : StageDelta :=
  let missing := manifestMissingFields m
  if missing ≠ [] then
    dOfCheck "Manifest valid" false (some ("missing: " ++ String.intercalate ", " missing))
  else
    dComp (dOfCheck "Manifest valid" true none)
      (dComp (idsMatchDelta sub m)
        (dComp (versionDelta m)
          (dComp (permsDelta m)
            (dComp (dangerDelta m)
              (dComp (helpUrlDelta m)
                (dComp (categoryDelta m)
                  (dComp (countDelta m) (securityDelta env sub m))))))))

/-- Delta of `fetchManifestStage`. -/
def fetchManifestDelta (env : JsEnv) (sub : Submission) : StageDelta :=
  match fetchFromGitHub env.fetch (jsStr sub.repo) "manifest.json" "main" with
  | .error e => dOfCheck "Repo accessible" false (some e.message)
  | .ok text =>
    match env.parseManifest text with
    | .error msg => dOfCheck "Repo accessible" false (some msg)
    | .ok m =>
      dComp ⟨[⟨"Repo accessible", true, none⟩, ⟨"Manifest found", true, none⟩], [], true, some m⟩
        (manifestChecksDelta env sub m)

/-- The `ValidationResult` reached after checks 1–5 when the first three
checks all pass: checks 1–4 recorded (check 4 failing exactly when the
filename differs from `{id}.json`), the duplicate warning present exactly when
`checkDuplicate` fires, no errors, no manifest. -/
def preFetchResult (filename : String) (sub : Submission) (dirFiles : List DirFile) :
    ValidationResult :=
  { pluginId := jsStr sub.id
    passed := if filename ≠ jsStr sub.id ++ ".json" then false else true
    checks := [⟨"Valid JSON", true, none⟩, ⟨"Required fields", true, none⟩,
      ⟨"Plugin ID format", true, none⟩,
      if filename ≠ jsStr sub.id ++ ".json" then
        ⟨"Filename matches ID", false, some ("expected " ++ (jsStr sub.id ++ ".json"))⟩
      else ⟨"Filename matches ID", true, none⟩]
    warnings := if checkDuplicate (jsStr sub.id) dirFiles then [dupWarnStr] else []
    errors := []
    manifest := none }

/-- The first and last 40 characters of the combined dangerous-permission
warning, used to classify a warning string as "the dangerous-permission
warning". -/
def dangerHeadStr : String := "Plugin requests dangerous permissions: `"

/-- See `dangerHeadStr`. -/
def dangerTailStr : String := "` - please document why these are needed"

/-- A warning string is a dangerous-permission warning when it starts with
`dangerHeadStr` and ends with `dangerTailStr`. -/
def isDangerWarning (w : String) : Bool :=
  decide (w.data.take 40 = dangerHeadStr.data)
    && decide (w.data.reverse.take 40 = dangerTailStr.data.reverse)

/-! ## C2 — the pass/fail flag of `ValidationResult` -/

/-- One mutating operation on a `ValidationResult`. -/
inductive VOp where
  | check (name : String) (passed : Bool) (details : Option String)
  | warn (message : String)
  | err (message : String)
deriving DecidableEq, Repr

/-- Application of one operation. -/
def applyVOp (r : ValidationResult) : VOp → ValidationResult
  | .check n p d => r.addCheck n p d
  | .warn m => r.addWarning m
  | .err m => r.addError m

/-- A fresh result with a sequence of operations applied in order. -/
def runVOps (pluginId : String) (ops : List VOp) : ValidationResult :=
  ops.foldl applyVOp (ValidationResult.init pluginId)

/-- Whether an operation clears the flag: a failed check or an error. -/
def vopFails : VOp → Bool
  | .check _ p _ => !p
  | .warn _ => false
  | .err _ => true

theorem foldl_applyVOp_passed (ops : List VOp) :
    ∀ r : ValidationResult, (ops.foldl applyVOp r).passed = (r.passed && !ops.any vopFails) := by
  induction ops with
  | nil => intro r; simp
  | cons op ops ih =>
    intro r
    cases op <;>
      simp [applyVOp, ValidationResult.addCheck, ValidationResult.addWarning,
        ValidationResult.addError, ih, vopFails, Bool.and_assoc]

/-- C2: for every sequence of `addCheck`/`addWarning`/`addError` operations on
a fresh `ValidationResult`, the final `passed` flag is `false` iff some check
in the sequence failed or some error was added; appending operations never
turns a `false` flag back to `true`; and appending a warning never changes the
flag. -/
theorem c2_validation_flag (pluginId : String) (ops : List VOp) :
    ((runVOps pluginId ops).passed = false ↔ ops.any vopFails = true)
    ∧ (∀ more : List VOp, (runVOps pluginId ops).passed = false →
        (runVOps pluginId (ops ++ more)).passed = false)
    ∧ (∀ w : String,
        (runVOps pluginId (ops ++ [VOp.warn w])).passed = (runVOps pluginId ops).passed) := by
  refine ⟨?_, ?_, ?_⟩
  · simp [runVOps, foldl_applyVOp_passed, ValidationResult.init]
  · intro more h
    simp only [runVOps, foldl_applyVOp_passed, ValidationResult.init, Bool.true_and] at h ⊢
    simp_all
  · intro w
    simp [runVOps, foldl_applyVOp_passed, ValidationResult.init, vopFails,
      applyVOp, ValidationResult.addWarning]

/-- Concrete instance of `c2_validation_flag`: an error followed by a warning
leaves the flag `false`. -/
theorem c2_validation_flag_witness :
    (runVOps "p" ([VOp.err "e"] ++ [VOp.warn "w"])).passed = false :=
  (c2_validation_flag "p" [VOp.err "e"]).2.1 [VOp.warn "w"] (by decide)


/-! ## C7 — characterization of `isValidPluginId` -/

theorem midLast_iff (l : List Char) :
    midLast l = true ↔
      ∃ mid d, l = mid ++ [d] ∧ isLowerDigit d = true ∧
        ∀ x ∈ mid, (isLowerDigit x = true ∨ x = '-') := by
  induction l with
  | nil =>
    constructor
    · intro h; exact absurd h (by simp [midLast])
    · rintro ⟨mid, d, h, -, -⟩; simp at h
  | cons c cs ih =>
    cases cs with
    | nil =>
      rw [show midLast [c] = isLowerDigit c from rfl]
      constructor
      · intro h; exact ⟨[], c, by simp, h, by simp⟩
      · rintro ⟨mid, d, h, hd, -⟩
        rcases mid with - | ⟨m, ms⟩
        · simp at h; subst h; exact hd
        · simp at h
    | cons c2 cs2 =>
      rw [show midLast (c :: c2 :: cs2) =
            ((isLowerDigit c || decide (c = '-')) && midLast (c2 :: cs2)) from rfl]
      rw [Bool.and_eq_true]
      constructor
      · rintro ⟨h1, h2⟩
        obtain ⟨mid, d, he, hd, hm⟩ := ih.mp h2
        refine ⟨c :: mid, d, by rw [List.cons_append, ← he], hd, ?_⟩
        intro x hx
        rcases List.mem_cons.mp hx with hx | hx
        · subst hx
          rcases Bool.or_eq_true _ _ |>.mp h1 with h | h
          · exact Or.inl h
          · exact Or.inr (of_decide_eq_true h)
        · exact hm x hx
      · rintro ⟨mid, d, he, hd, hm⟩
        rcases mid with - | ⟨m, ms⟩
        · simp at he
        · injection he with h1 h2
          subst h1
          refine ⟨?_, ih.mpr ⟨ms, d, h2, hd, fun x hx => hm x (by simp [hx])⟩⟩
          rcases hm c (by simp) with h | h
          · simp [h]
          · simp [h]

theorem partPattern_iff (l : List Char) :
    partPattern l = true ↔
      ((∃ c, l = [c] ∧ isLowerDigit c = true) ∨
       (∃ c mid d, l = c :: (mid ++ [d]) ∧ isLowerDigit c = true ∧ isLowerDigit d = true ∧
         ∀ x ∈ mid, (isLowerDigit x = true ∨ x = '-'))) := by
  cases l with
  | nil =>
    constructor
    · intro h; exact absurd h (by simp [partPattern])
    · rintro (⟨c, h, -⟩ | ⟨c, mid, d, h, -, -, -⟩) <;> simp at h
  | cons c cs =>
    cases cs with
    | nil =>
      rw [show partPattern [c] = isLowerDigit c from rfl]
      constructor
      · intro h; exact Or.inl ⟨c, rfl, h⟩
      · rintro (⟨c2, h, hc⟩ | ⟨c2, mid, d, h, -, -, -⟩)
        · simp at h; subst h; exact hc
        · simp at h
    | cons c2 cs2 =>
      rw [show partPattern (c :: c2 :: cs2) = (isLowerDigit c && midLast (c2 :: cs2)) from rfl]
      rw [Bool.and_eq_true]
      constructor
      · rintro ⟨h1, h2⟩
        obtain ⟨mid, d, he, hd, hm⟩ := (midLast_iff _).mp h2
        exact Or.inr ⟨c, mid, d, by rw [he], h1, hd, hm⟩
      · rintro (⟨c3, h, -⟩ | ⟨c3, mid, d, he, hc, hd, hm⟩)
        · simp at h
        · injection he with h1 h2
          subst h1
          exact ⟨hc, (midLast_iff _).mpr ⟨mid, d, h2, hd, hm⟩⟩

/-- C7: `isValidPluginId i` holds iff `i` splits on `.` into at least two
parts and every part either is a single `[a-z0-9]` character or matches
`[a-z0-9][a-z0-9-]*[a-z0-9]` (first and last character lowercase alphanumeric,
middle characters lowercase alphanumeric or hyphen) — so empty segments,
uppercase letters and leading or trailing hyphens in a segment are all
rejected. -/
theorem c7_identifier_characterization (i : String) :
    isValidPluginId i = true ↔
      (2 ≤ (splitOnDot i.data).length ∧
        ∀ p ∈ splitOnDot i.data,
          ((∃ c, p = [c] ∧ isLowerDigit c = true) ∨
           (∃ c mid d, p = c :: (mid ++ [d]) ∧ isLowerDigit c = true ∧ isLowerDigit d = true ∧
             ∀ x ∈ mid, (isLowerDigit x = true ∨ x = '-')))) := by
  unfold isValidPluginId
  rw [Bool.and_eq_true, decide_eq_true_iff, List.all_eq_true]
  constructor
  · rintro ⟨h1, h2⟩
    exact ⟨h1, fun p hp => (partPattern_iff p).mp (h2 p hp)⟩
  · rintro ⟨h1, h2⟩
    exact ⟨h1, fun p hp => (partPattern_iff p).mpr (h2 p hp)⟩

/-! ## C9 — characterization of `isValidSemver` -/

theorem run_stop {p : Char → Bool} (a : List Char) (c : Char) (r : List Char)
    (ha : ∀ x ∈ a, p x = true) (hc : p c = false) :
    (a ++ c :: r).takeWhile p = a ∧ (a ++ c :: r).dropWhile p = c :: r := by
  induction a with
  | nil => simp [List.takeWhile_cons, List.dropWhile_cons, hc]
  | cons x xs ih =>
    have hx : p x = true := ha x (by simp)
    have := ih (fun y hy => ha y (by simp [hy]))
    simp [List.takeWhile_cons, List.dropWhile_cons, hx, this.1, this.2]

theorem run_all {p : Char → Bool} (a : List Char) (ha : ∀ x ∈ a, p x = true) :
    a.takeWhile p = a ∧ a.dropWhile p = [] :=
  ⟨List.takeWhile_eq_self_iff.mpr ha, List.dropWhile_eq_nil_iff.mpr ha⟩

theorem semverBuild_iff (cs : List Char) :
    semverBuild cs = true ↔
      (cs = [] ∨ ∃ xs, cs = '+' :: xs ∧ xs ≠ [] ∧ ∀ c ∈ xs, isSemverChar c = true) := by
  cases cs with
  | nil => simp [semverBuild]
  | cons c rest =>
    rw [show semverBuild (c :: rest) =
        (decide (c = '+') && !(rest.takeWhile isSemverChar).isEmpty
          && (rest.dropWhile isSemverChar).isEmpty) from rfl]
    constructor
    · intro h
      rw [Bool.and_eq_true, Bool.and_eq_true] at h
      obtain ⟨⟨hplus, hrun⟩, hdrop⟩ := h
      have hc : c = '+' := of_decide_eq_true hplus
      have hall : ∀ x ∈ rest, isSemverChar x = true :=
        List.dropWhile_eq_nil_iff.mp (by simpa using hdrop)
      have htw : rest.takeWhile isSemverChar = rest := List.takeWhile_eq_self_iff.mpr hall
      refine Or.inr ⟨rest, by rw [hc], ?_, hall⟩
      intro hrest
      subst hrest
      simp at hrun
    · rintro (h | ⟨xs, hcs, hne, hall⟩)
      · exact absurd h (by simp)
      · injection hcs with h1 h2
        subst h1; subst h2
        have := run_all rest hall
        simp [this.1, this.2, hne]

theorem semverTail_iff (cs : List Char) :
    semverTail cs = true ↔
      ∃ pre bld, cs = optPart '-' pre ++ optPart '+' bld ∧ optRunOk pre ∧ optRunOk bld := by
  cases cs with
  | nil =>
    constructor
    · intro h; exact ⟨none, none, by simp [optPart], trivial, trivial⟩
    · intro h; rfl
  | cons c rest =>
    by_cases hc : c = '-'
    · subst hc
      rw [show semverTail ('-' :: rest) =
          (!(rest.takeWhile isSemverChar).isEmpty
            && semverBuild (rest.dropWhile isSemverChar)) from by simp [semverTail]]
      rw [Bool.and_eq_true]
      constructor
      · rintro ⟨hrun, hbuild⟩
        rcases (semverBuild_iff _).mp hbuild with hdw | ⟨xs, hdw, hxs, hallxs⟩
        · have hall : ∀ x ∈ rest, isSemverChar x = true := List.dropWhile_eq_nil_iff.mp hdw
          have hne : rest ≠ [] := by intro h; subst h; simp at hrun
          exact ⟨some rest, none, by simp [optPart], ⟨hne, hall⟩, trivial⟩
        · refine ⟨some (rest.takeWhile isSemverChar), some xs, ?_, ⟨by simpa using hrun,
            fun x hx => List.mem_takeWhile_imp hx⟩, ⟨hxs, hallxs⟩⟩
          show '-' :: rest = '-' :: (rest.takeWhile isSemverChar ++ ('+' :: xs))
          rw [← hdw, List.takeWhile_append_dropWhile]
      · rintro ⟨pre, bld, hcs, hpre, hbld⟩
        cases pre with
        | none =>
          cases bld with
          | none => simp [optPart] at hcs
          | some ys => simp [optPart] at hcs
        | some xs =>
          rw [show optPart '-' (some xs) = '-' :: xs from rfl, List.cons_append] at hcs
          injection hcs with h1 h2
          obtain ⟨hxne, hxall⟩ := hpre
          cases bld with
          | none =>
            rw [show optPart '+' none = [] from rfl, List.append_nil] at h2
            subst h2
            have := run_all rest hxall
            simp [this.1, this.2, hxne, semverBuild]
          | some ys =>
            rw [show optPart '+' (some ys) = '+' :: ys from rfl] at h2
            subst h2
            have := run_stop xs '+' ys hxall (by decide)
            have hb : semverBuild ('+' :: ys) = true :=
              (semverBuild_iff _).mpr (Or.inr ⟨ys, rfl, hbld.1, hbld.2⟩)
            rw [this.1, this.2]
            simp [hb, hxne]
    · rw [show semverTail (c :: rest) = semverBuild (c :: rest) from by simp [semverTail, hc]]
      constructor
      · intro h
        rcases (semverBuild_iff _).mp h with h | ⟨xs, hcs, hxs, hall⟩
        · exact absurd h (by simp)
        · exact ⟨none, some xs, by simp [optPart, hcs], trivial, ⟨hxs, hall⟩⟩
      · rintro ⟨pre, bld, hcs, hpre, hbld⟩
        cases pre with
        | some xs =>
          rw [show optPart '-' (some xs) = '-' :: xs from rfl, List.cons_append] at hcs
          injection hcs with h1 h2
          exact absurd h1 hc
        | none =>
          rw [show optPart '-' none = [] from rfl, List.nil_append] at hcs
          cases bld with
          | none => simp [optPart] at hcs
          | some ys =>
            rw [show optPart '+' (some ys) = '+' :: ys from rfl] at hcs
            rw [hcs]
            exact (semverBuild_iff _).mpr (Or.inr ⟨ys, rfl, hbld.1, hbld.2⟩)

theorem semverMatch_iff (cs : List Char) :
    semverMatch cs = true ↔
      ∃ a b c : List Char, ∃ pre bld : Option (List Char),
        cs = a ++ '.' :: (b ++ '.' :: (c ++ optPart '-' pre ++ optPart '+' bld)) ∧
        a ≠ [] ∧ (∀ x ∈ a, isDigitCh x = true) ∧
        b ≠ [] ∧ (∀ x ∈ b, isDigitCh x = true) ∧
        c ≠ [] ∧ (∀ x ∈ c, isDigitCh x = true) ∧
        optRunOk pre ∧ optRunOk bld := by
  constructor
  · intro h
    unfold semverMatch at h
    cases hd1 : cs.dropWhile isDigitCh with
    | nil => rw [hd1] at h; simp at h
    | cons c1 r2 =>
      rw [hd1] at h
      simp only [] at h
      by_cases ha : (cs.takeWhile isDigitCh).isEmpty = true
      · rw [if_pos ha] at h; exact absurd h (by simp)
      · rw [if_neg ha] at h
        by_cases hc1 : c1 = '.'
        · rw [if_pos hc1] at h
          cases hd2 : r2.dropWhile isDigitCh with
          | nil => rw [hd2] at h; simp at h
          | cons c2 r4 =>
            rw [hd2] at h
            simp only [] at h
            by_cases hb : (r2.takeWhile isDigitCh).isEmpty = true
            · rw [if_pos hb] at h; exact absurd h (by simp)
            · rw [if_neg hb] at h
              by_cases hc2 : c2 = '.'
              · rw [if_pos hc2] at h
                by_cases hcc : (r4.takeWhile isDigitCh).isEmpty = true
                · rw [if_pos hcc] at h; exact absurd h (by simp)
                · rw [if_neg hcc] at h
                  obtain ⟨pre, bld, htl, hpre, hbld⟩ := (semverTail_iff _).mp h
                  refine ⟨cs.takeWhile isDigitCh, r2.takeWhile isDigitCh, r4.takeWhile isDigitCh,
                    pre, bld, ?_, by simpa using ha, fun x hx => List.mem_takeWhile_imp hx,
                    by simpa using hb, fun x hx => List.mem_takeWhile_imp hx,
                    by simpa using hcc, fun x hx => List.mem_takeWhile_imp hx, hpre, hbld⟩
                  calc cs = cs.takeWhile isDigitCh ++ cs.dropWhile isDigitCh :=
                        (List.takeWhile_append_dropWhile _ _).symm
                    _ = cs.takeWhile isDigitCh ++ '.' :: r2 := by rw [hd1, hc1]
                    _ = cs.takeWhile isDigitCh ++ '.' ::
                          (r2.takeWhile isDigitCh ++ r2.dropWhile isDigitCh) := by
                        rw [List.takeWhile_append_dropWhile]
                    _ = cs.takeWhile isDigitCh ++ '.' ::
                          (r2.takeWhile isDigitCh ++ '.' :: r4) := by rw [hd2, hc2]
                    _ = cs.takeWhile isDigitCh ++ '.' :: (r2.takeWhile isDigitCh ++ '.' ::
                          (r4.takeWhile isDigitCh ++ r4.dropWhile isDigitCh)) := by
                        rw [List.takeWhile_append_dropWhile]
                    _ = cs.takeWhile isDigitCh ++ '.' :: (r2.takeWhile isDigitCh ++ '.' ::
                          (r4.takeWhile isDigitCh ++ (optPart '-' pre ++ optPart '+' bld))) := by
                        rw [htl]
                    _ = cs.takeWhile isDigitCh ++ '.' :: (r2.takeWhile isDigitCh ++ '.' ::
                          (r4.takeWhile isDigitCh ++ optPart '-' pre ++ optPart '+' bld)) := by
                        rw [List.append_assoc]
              · rw [if_neg hc2] at h; exact absurd h (by simp)
        · rw [if_neg hc1] at h; exact absurd h (by simp)
  · rintro ⟨a, b, c, pre, bld, hcs, hane, haall, hbne, hball, hcne, hcall, hpre, hbld⟩
    subst hcs
    have h1 := run_stop a '.' (b ++ '.' :: (c ++ optPart '-' pre ++ optPart '+' bld)) haall
      (by decide)
    have h2 := run_stop b '.' (c ++ optPart '-' pre ++ optPart '+' bld) hball (by decide)
    have h3 : (c ++ optPart '-' pre ++ optPart '+' bld).takeWhile isDigitCh = c ∧
        (c ++ optPart '-' pre ++ optPart '+' bld).dropWhile isDigitCh =
          optPart '-' pre ++ optPart '+' bld := by
      cases pre with
      | some xs =>
        rw [show optPart '-' (some xs) = '-' :: xs from rfl, List.append_assoc,
          List.cons_append]
        exact run_stop c '-' (xs ++ optPart '+' bld) hcall (by decide)
      | none =>
        rw [show optPart '-' none = [] from rfl, List.append_nil]
        cases bld with
        | some ys =>
          rw [show optPart '+' (some ys) = '+' :: ys from rfl]
          exact run_stop c '+' ys hcall (by decide)
        | none =>
          rw [show optPart '+' none = [] from rfl, List.append_nil]
          exact run_all c hcall
    have htail : semverTail (optPart '-' pre ++ optPart '+' bld) = true :=
      (semverTail_iff _).mpr ⟨pre, bld, rfl, hpre, hbld⟩
    have hae : (a.isEmpty = true) = False := by
      simp [List.isEmpty_iff, hane]
    have hbe : (b.isEmpty = true) = False := by
      simp [List.isEmpty_iff, hbne]
    have hce : (c.isEmpty = true) = False := by
      simp [List.isEmpty_iff, hcne]
    unfold semverMatch
    rw [h1.2]
    simp only []
    rw [h1.1, h2.2]
    simp only []
    rw [h2.1, h3.1, h3.2]
    simp [hae, hbe, hce, htail]

/-- C9: `isValidSemver v` holds iff `v` is `MAJOR.MINOR.PATCH` — three
non-empty digit runs separated by literal dots — optionally followed by a `-`
pre-release suffix and/or a `+` build-metadata suffix (each a marker character
and a non-empty run of `[a-zA-Z0-9.-]` characters), and nothing else. -/
theorem c9_semver_characterization (v : String) :
    isValidSemver v = true ↔
      ∃ a b c : List Char, ∃ pre bld : Option (List Char),
        v.data = a ++ '.' :: (b ++ '.' :: (c ++ optPart '-' pre ++ optPart '+' bld)) ∧
        a ≠ [] ∧ (∀ x ∈ a, isDigitCh x = true) ∧
        b ≠ [] ∧ (∀ x ∈ b, isDigitCh x = true) ∧
        c ≠ [] ∧ (∀ x ∈ c, isDigitCh x = true) ∧
        optRunOk pre ∧ optRunOk bld :=
  semverMatch_iff v.data

/-! ## C1 and C10 — the directory builder -/

theorem buildDirectory_loop (env : JsEnv) (files : List DirFile) :
    ∀ acc : List DirectoryEntry × List BuildError,
      files.foldl
        (fun (acc : List DirectoryEntry × List BuildError) f =>
          match processFile env f with
          | .ok p => (acc.1 ++ [p], acc.2)
          | .error e => (acc.1, acc.2 ++ [⟨f.name, e⟩]))
        acc =
      (acc.1 ++ files.filterMap (fun f => (processFile env f).toOption),
       acc.2 ++ files.filterMap
         (fun f =>
           match processFile env f with
           | .error e => some ⟨f.name, e⟩
           | .ok _ => none)) := by
  induction files with
  | nil => intro acc; simp
  | cons f fs ih =>
    intro acc
    cases hf : processFile env f <;>
      simp [hf, ih, List.filterMap_cons, Except.toOption]

/-- C1 (evaluating the code at the failing input): a plugins directory of two
submissions that both read, fetch and parse successfully, where the second
manifest parses but lacks `name`.  The per-file loop records no error and
projects both entries — the nameless manifest is not one of the caught
failure modes — yet the run aborts inside the sort with the comparator
TypeError, so no directory document is produced and the bad submission is
recorded nowhere: one bad submission does abort the whole run, contrary to
the claim (and to spec §4.6, which states the intent the code misses). -/
theorem c1_builder_abort_on_nameless_manifest :
    processFile envCrash fileZ = .ok (mkEntry envCrash subZ emptyManifest)
    ∧ (buildDirectory envCrash [fileA, fileZ]).2 = []
    ∧ (buildDirectory envCrash [fileA, fileZ]).1 =
        .error "Cannot read properties of undefined (reading 'localeCompare')" := by
  decide

/-- C10: whenever the builder processes a submission file successfully, the
resulting entry takes `id`, `name`, `description`, `author`, `version`,
`minAppVersion`, `permissions` and all optional fields from the fetched
manifest and only `repo` from the local submission; no condition relates the
manifest's `id` to the submission's `id`, so an entry whose `id` differs from
its owning submission's `id` is still produced. -/
theorem c10_entry_projection (env : JsEnv) (f : DirFile) (sub : Submission) (url : String)
    (m : Manifest) (h1 : f.parsed = .ok sub) (h2 : sub.repo = some url)
    (h3 : fetchManifest env url "main" = .ok m) :
    processFile env f = .ok
      { id := m.id, name := m.name, description := m.description, author := m.author,
        version := m.version, minAppVersion := m.minAppVersion, repo := sub.repo,
        permissions := m.permissions.getD [],
        authorUrl := if truthyS m.authorUrl then m.authorUrl else none,
        helpUrl := if truthyS m.helpUrl then m.helpUrl else none,
        fundingUrl := if truthyS m.fundingUrl then m.fundingUrl else none,
        supportLinks := if truthyL m.supportLinks then m.supportLinks else none,
        tags := if truthyL m.tags then m.tags else none,
        category := if truthyS m.category then m.category else none,
        updatedAt := env.now } := by
  obtain ⟨nm, parsed⟩ := f
  simp only [] at h1
  subst h1
  simp only [processFile]
  rw [h2]
  simp only []
  rw [h3]
  simp [mkEntry, h2]

/-- Concrete instance of `c10_entry_projection` at a manifest whose `id`
differs from the submission's `id`: the entry is still produced, with the
manifest's `id`. -/
theorem c10_entry_projection_witness :
    manifestOtherId.id ≠ exSub.id ∧
    processFile envOther ⟨"com.a.b.json", Except.ok exSub⟩ =
      .ok (mkEntry envOther exSub manifestOtherId) :=
  ⟨by decide,
   c10_entry_projection envOther ⟨"com.a.b.json", Except.ok exSub⟩ exSub
     "https://github.com/a/b" manifestOtherId rfl rfl rfl⟩

/-! ## C4 — the two-attempt branch-fallback policy -/

theorem fetchFromGitHubT_fst (fetch : String → FetchResponse) (repoUrl filePath branch : String) :
    (fetchFromGitHubT fetch repoUrl filePath branch).1 =
      fetchFromGitHub fetch repoUrl filePath branch := by
  cases hp : parseGitHubUrl repoUrl
  · simp [fetchFromGitHubT, fetchFromGitHub, hp]
  · simp only [fetchFromGitHubT, fetchFromGitHub, hp]
    split_ifs <;> rfl

theorem fetchManifestT_fst (env : JsEnv) (repoUrl branch : String) :
    (fetchManifestT env repoUrl branch).1 = fetchManifest env repoUrl branch := by
  cases hp : parseGitHubUrl repoUrl
  · simp [fetchManifestT, fetchManifest, hp]
  · simp only [fetchManifestT, fetchManifest, hp]
    split_ifs <;> rfl

/-- C4: for both fetch helpers (the validator's `fetchFromGitHub` and the
builder's `fetchManifest`), on a URL that parses: when the requested branch is
the default `main` and its response is non-ok, exactly one further request is
issued — to the single hardcoded fallback branch `master` — and if that
response is also non-ok the call surfaces a failure carrying that response's
HTTP status; when the requested branch is not `main`, exactly one request is
issued and a non-ok response surfaces a failure carrying its status.  The
request traces show no third attempt, no backoff, and no other fallback
branch. -/
theorem c4_fallback_policy (fetch : String → FetchResponse) (env : JsEnv)
    (repoUrl filePath : String) (o r : String)
    (hp : parseGitHubUrl repoUrl = some (o, r)) :
    (((fetch (rawUrl o r "main" filePath)).ok = false →
        (fetchFromGitHubT fetch repoUrl filePath "main").2 =
          [rawUrl o r "main" filePath, rawUrl o r "master" filePath] ∧
        ((fetch (rawUrl o r "master" filePath)).ok = false →
          fetchFromGitHub fetch repoUrl filePath "main" =
            .error (.httpError filePath (fetch (rawUrl o r "master" filePath)).status)))
      ∧ ∀ branch, branch ≠ "main" → (fetch (rawUrl o r branch filePath)).ok = false →
          (fetchFromGitHubT fetch repoUrl filePath branch).2 = [rawUrl o r branch filePath] ∧
          fetchFromGitHub fetch repoUrl filePath branch =
            .error (.httpError filePath (fetch (rawUrl o r branch filePath)).status))
    ∧ (((env.fetch (rawUrl o r "main" "manifest.json")).ok = false →
        (fetchManifestT env repoUrl "main").2 =
          [rawUrl o r "main" "manifest.json", rawUrl o r "master" "manifest.json"] ∧
        ((env.fetch (rawUrl o r "master" "manifest.json")).ok = false →
          fetchManifest env repoUrl "main" =
            .error ("Failed to fetch manifest: "
              ++ toString (env.fetch (rawUrl o r "master" "manifest.json")).status)))
      ∧ ∀ branch, branch ≠ "main" →
          (env.fetch (rawUrl o r branch "manifest.json")).ok = false →
          (fetchManifestT env repoUrl branch).2 = [rawUrl o r branch "manifest.json"] ∧
          fetchManifest env repoUrl branch =
            .error ("Failed to fetch manifest: "
              ++ toString (env.fetch (rawUrl o r branch "manifest.json")).status)) := by
  refine ⟨⟨?_, ?_⟩, ⟨?_, ?_⟩⟩
  · intro h1
    constructor
    · simp [fetchFromGitHubT, hp, h1]
      split_ifs <;> rfl
    · intro h2
      simp [fetchFromGitHub, hp, h1, h2]
  · intro branch hb h1
    constructor
    · simp [fetchFromGitHubT, hp, h1, hb]
    · simp [fetchFromGitHub, hp, h1, hb]
  · intro h1
    constructor
    · simp [fetchManifestT, hp, h1]
      split_ifs <;> rfl
    · intro h2
      simp [fetchManifest, hp, h1, h2]
  · intro branch hb h1
    constructor
    · simp [fetchManifestT, hp, h1, hb]
    · simp [fetchManifest, hp, h1, hb]

/-- Concrete instance of `c4_fallback_policy`: everything responds 404, the
URL is `https://github.com/a/b`; both attempted-URL traces and both surfaced
failures are as stated. -/
theorem c4_fallback_policy_witness :
    (fetchFromGitHubT envBad.fetch "https://github.com/a/b" "main.js" "main").2 =
      [rawUrl "a" "b" "main" "main.js", rawUrl "a" "b" "master" "main.js"] ∧
    fetchFromGitHub envBad.fetch "https://github.com/a/b" "main.js" "main" =
      .error (.httpError "main.js" 404) ∧
    (fetchManifestT envBad "https://github.com/a/b" "main").2 =
      [rawUrl "a" "b" "main" "manifest.json", rawUrl "a" "b" "master" "manifest.json"] ∧
    fetchManifest envBad "https://github.com/a/b" "main" =
      .error ("Failed to fetch manifest: 404") := by
  have h := c4_fallback_policy envBad.fetch envBad "https://github.com/a/b" "main.js" "a" "b"
    (by decide)
  obtain ⟨⟨hg, -⟩, ⟨hm, -⟩⟩ := h
  obtain ⟨hg1, hg2⟩ := hg (by decide)
  obtain ⟨hm1, hm2⟩ := hm (by decide)
  exact ⟨hg1, by simpa using hg2 (by decide), hm1, by simpa using hm2 (by decide)⟩

/-! ## Stage-delta lemmas for the validator pipeline -/

theorem applyDelta_dComp (d1 d2 : StageDelta) (r : ValidationResult) :
    applyDelta (dComp d1 d2) r = applyDelta d2 (applyDelta d1 r) := by
  cases hm : d2.mset <;>
    simp [applyDelta, dComp, hm, Bool.and_assoc]

theorem addCheck_delta (r : ValidationResult) (n : String) (p : Bool) (d : Option String) :
    r.addCheck n p d = applyDelta (dOfCheck n p d) r := by
  simp [applyDelta, dOfCheck, ValidationResult.addCheck]

theorem addWarning_delta (r : ValidationResult) (msg : String) :
    r.addWarning msg = applyDelta (dOfWarn msg) r := by
  simp [applyDelta, dOfWarn, ValidationResult.addWarning]

theorem applyDelta_neutral (r : ValidationResult) : r = applyDelta dNeutral r := by
  simp [applyDelta, dNeutral]

theorem idsMatchStage_delta (sub : Submission) (m : Manifest) (r : ValidationResult) :
    idsMatchStage sub m r = applyDelta (idsMatchDelta sub m) r := by
  simp only [idsMatchStage, idsMatchDelta]
  split_ifs <;> apply addCheck_delta

theorem versionStage_delta (m : Manifest) (r : ValidationResult) :
    versionStage m r = applyDelta (versionDelta m) r := by
  simp only [versionStage, versionDelta]
  split_ifs <;> apply addCheck_delta

theorem permsStage_delta (m : Manifest) (r : ValidationResult) :
    permsStage m r = applyDelta (permsDelta m) r := by
  simp only [permsStage, permsDelta]
  split_ifs <;> apply addCheck_delta

theorem dangerStage_delta (m : Manifest) (r : ValidationResult) :
    dangerStage m r = applyDelta (dangerDelta m) r := by
  simp only [dangerStage, dangerDelta]
  split_ifs <;> first | apply addWarning_delta | apply applyDelta_neutral

theorem helpUrlStage_delta (m : Manifest) (r : ValidationResult) :
    helpUrlStage m r = applyDelta (helpUrlDelta m) r := by
  simp only [helpUrlStage, helpUrlDelta]
  split_ifs <;> first | apply addWarning_delta | apply applyDelta_neutral

theorem categoryStage_delta (m : Manifest) (r : ValidationResult) :
    categoryStage m r = applyDelta (categoryDelta m) r := by
  simp only [categoryStage, categoryDelta]
  split_ifs <;> first | apply addWarning_delta | apply applyDelta_neutral

theorem countStage_delta (m : Manifest) (r : ValidationResult) :
    countStage m r = applyDelta (countDelta m) r := by
  simp only [countStage, countDelta]
  split_ifs <;> first | apply addWarning_delta | apply applyDelta_neutral

theorem foldl_warn_delta (env : JsEnv) (mainJs : String) (l : List (String × String)) :
    ∀ r : ValidationResult,
      l.foldl
        (fun r pr => if env.regexTest pr.1 mainJs then r.addWarning (patternWarnStr pr.2) else r)
        r =
      applyDelta
        ⟨[], l.filterMap
            (fun pr => if env.regexTest pr.1 mainJs then some (patternWarnStr pr.2) else none),
          true, none⟩ r := by
  induction l with
  | nil => intro r; simp [applyDelta]
  | cons pr l ih =>
    intro r
    rw [List.foldl_cons]
    by_cases h : env.regexTest pr.1 mainJs = true
    · rw [if_pos h, ih]
      simp [applyDelta, ValidationResult.addWarning, List.filterMap_cons, h]
    · rw [if_neg h, ih]
      simp [applyDelta, List.filterMap_cons, h]

theorem securityStage_delta (env : JsEnv) (sub : Submission) (m : Manifest)
    (r : ValidationResult) :
    securityStage env sub m r = applyDelta (securityDelta env sub m) r := by
  unfold securityStage securityDelta
  cases hf : fetchFromGitHub env.fetch (jsStr sub.repo) (jsStr m.main) "main" with
  | error e => apply addCheck_delta
  | ok mainJs =>
    simp only []
    by_cases hsize : 1024 * 1024 < mainJs.length
    · rw [if_pos hsize, if_pos hsize, foldl_warn_delta]
      simp [applyDelta, ValidationResult.addWarning]
    · rw [if_neg hsize, if_neg hsize, foldl_warn_delta]
      simp [applyDelta]

theorem manifestChecksStage_delta (env : JsEnv) (sub : Submission) (m : Manifest)
    (r : ValidationResult) :
    manifestChecksStage env sub m r = applyDelta (manifestChecksDelta env sub m) r := by
  simp only [manifestChecksStage, manifestChecksDelta]
  split_ifs with h
  · apply addCheck_delta
  · rw [addCheck_delta, idsMatchStage_delta, versionStage_delta, permsStage_delta,
      dangerStage_delta, helpUrlStage_delta, categoryStage_delta, countStage_delta,
      securityStage_delta]
    simp only [applyDelta_dComp]

theorem fetchManifestStage_delta (env : JsEnv) (sub : Submission) (r : ValidationResult) :
    fetchManifestStage env sub r = applyDelta (fetchManifestDelta env sub) r := by
  unfold fetchManifestStage fetchManifestDelta
  cases hf : fetchFromGitHub env.fetch (jsStr sub.repo) "manifest.json" "main" with
  | error e => apply addCheck_delta
  | ok text =>
    simp only []
    cases hp : env.parseManifest text with
    | error msg => apply addCheck_delta
    | ok m =>
      simp only [applyDelta_dComp]
      rw [manifestChecksStage_delta]
      congr 1
      simp [applyDelta, ValidationResult.addCheck]

theorem validatePlugin_reached (env : JsEnv) (filename : String) (sub : Submission)
    (dirFiles : List DirFile)
    (hmiss : submissionMissingFields sub = [])
    (hid : isValidPluginId (jsStr sub.id) = true) :
    validatePlugin env filename (.ok sub) dirFiles =
      applyDelta (fetchManifestDelta env sub) (preFetchResult filename sub dirFiles) := by
  unfold validatePlugin
  simp only [hmiss, hid]
  rw [if_neg (by simp)]
  rw [if_neg (by simp)]
  rw [fetchManifestStage_delta]
  congr 1
  unfold preFetchResult
  split_ifs with h1 h2 <;>
    simp [ValidationResult.init, ValidationResult.addCheck, ValidationResult.addWarning, h1]

/-! ## String-classification lemmas for the warning messages -/

theorem take_of_append_le (p r : List Char) (k : Nat) (hk : k ≤ p.length) :
    (p ++ r).take k = p.take k := by
  rw [List.take_append_eq_append_take, Nat.sub_eq_zero_of_le hk, List.take_zero,
    List.append_nil]

theorem isDanger_dangerWarn (l : List String) : isDangerWarning (dangerWarnStr l) = true := by
  unfold isDangerWarning dangerWarnStr dangerHeadStr dangerTailStr
  rw [String.data_append, String.data_append, Bool.and_eq_true, decide_eq_true_iff,
    decide_eq_true_iff]
  constructor
  · rw [List.append_assoc]
    rw [take_of_append_le _ _ _ (by decide)]
    exact List.take_of_length_le (by decide)
  · rw [List.reverse_append]
    rw [take_of_append_le _ _ _ (by simp)]
    exact List.take_of_length_le (by simp)

theorem countWarn_revtake (n : Nat) :
    (countWarnStr n).data.reverse.take 40 =
      (" permissions - consider if all are necessary" : String).data.reverse.take 40 := by
  unfold countWarnStr
  rw [String.data_append, String.data_append, List.reverse_append]
  exact take_of_append_le _ _ _ (by decide)

theorem sizeWarn_take22 (k : Nat) :
    (sizeWarnStr k).data.take 22 = ("Main script is large (" : String).data := by
  unfold sizeWarnStr
  rw [String.data_append, String.data_append]
  rw [take_of_append_le _ _ _ (by
    rw [List.length_append]
    have h : ("Main script is large (" : String).data.length = 22 := by decide
    omega)]
  rw [take_of_append_le _ _ _ (by decide)]
  exact List.take_of_length_le (by decide)

theorem isDanger_count (n : Nat) : isDangerWarning (countWarnStr n) = false := by
  have hne : ¬((countWarnStr n).data.reverse.take 40 = dangerTailStr.data.reverse) := by
    rw [countWarn_revtake]
    decide
  unfold isDangerWarning
  simp [hne]

theorem isDanger_size (k : Nat) : isDangerWarning (sizeWarnStr k) = false := by
  have hne : ¬((sizeWarnStr k).data.take 40 = dangerHeadStr.data) := by
    intro h
    have h22 := congrArg (List.take 22) h
    rw [List.take_take, show (22 : Nat) ⊓ 40 = 22 from by decide, sizeWarn_take22] at h22
    exact absurd h22 (by decide)
  unfold isDangerWarning
  simp [hne]

theorem isDanger_dup : isDangerWarning dupWarnStr = false := by decide

theorem danger_ne_dup (l : List String) : dangerWarnStr l ≠ dupWarnStr := by
  intro he
  have h := isDanger_dangerWarn l
  rw [he, isDanger_dup] at h
  exact Bool.noConfusion h

theorem count_ne_dup (n : Nat) : countWarnStr n ≠ dupWarnStr := by
  intro he
  have h := congrArg (fun s => s.data.reverse.take 40) he
  simp only [] at h
  rw [countWarn_revtake] at h
  exact absurd h (by decide)

theorem size_ne_dup (k : Nat) : sizeWarnStr k ≠ dupWarnStr := by
  intro he
  have h := congrArg (fun s => s.data.take 22) he
  simp only [] at h
  rw [sizeWarn_take22] at h
  exact absurd h (by decide)

/-! ## Warning-list properties of the pipeline deltas -/

theorem mcDelta_dw_eq (env : JsEnv) (sub : Submission) (m : Manifest)
    (h : manifestMissingFields m = []) :
    (manifestChecksDelta env sub m).dw =
      (dangerDelta m).dw ++ ((helpUrlDelta m).dw ++ ((categoryDelta m).dw
        ++ ((countDelta m).dw ++ (securityDelta env sub m).dw))) := by
  simp only [manifestChecksDelta]
  rw [if_neg (by simp [h])]
  simp [dComp, dOfCheck, idsMatchDelta, versionDelta, permsDelta]
  split_ifs <;> simp [dOfCheck]

theorem dangerDelta_dw_nodup (m : Manifest) :
    ∀ w ∈ (dangerDelta m).dw, w ≠ dupWarnStr := by
  unfold dangerDelta
  split_ifs
  · intro w hw
    simp [dOfWarn] at hw
    subst hw
    exact danger_ne_dup _
  · intro w hw
    simp [dNeutral] at hw

theorem helpUrlDelta_dw_prop (m : Manifest) :
    ∀ w ∈ (helpUrlDelta m).dw, isDangerWarning w = false ∧ w ≠ dupWarnStr := by
  unfold helpUrlDelta
  split_ifs
  · intro w hw
    simp [dOfWarn] at hw
    subst hw
    exact ⟨by decide, by decide⟩
  · intro w hw
    simp [dNeutral] at hw

theorem categoryDelta_dw_prop (m : Manifest) :
    ∀ w ∈ (categoryDelta m).dw, isDangerWarning w = false ∧ w ≠ dupWarnStr := by
  unfold categoryDelta
  split_ifs
  · intro w hw
    simp [dOfWarn] at hw
    subst hw
    exact ⟨by decide, by decide⟩
  · intro w hw
    simp [dNeutral] at hw

theorem countDelta_dw_prop (m : Manifest) :
    ∀ w ∈ (countDelta m).dw, isDangerWarning w = false ∧ w ≠ dupWarnStr := by
  unfold countDelta
  split_ifs
  · intro w hw
    simp [dOfWarn] at hw
    subst hw
    exact ⟨isDanger_count _, count_ne_dup _⟩
  · intro w hw
    simp [dNeutral] at hw

theorem securityDelta_dw_prop (env : JsEnv) (sub : Submission) (m : Manifest) :
    ∀ w ∈ (securityDelta env sub m).dw, isDangerWarning w = false ∧ w ≠ dupWarnStr := by
  unfold securityDelta
  cases hf : fetchFromGitHub env.fetch (jsStr sub.repo) (jsStr m.main) "main" with
  | error e =>
    intro w hw
    simp [dOfCheck] at hw
  | ok mainJs =>
    intro w hw
    simp only [] at hw
    rcases List.mem_append.mp hw with hw | hw
    · rcases Classical.em (1024 * 1024 < mainJs.length) with hs | hs
      · rw [if_pos hs] at hw
        simp at hw
        subst hw
        exact ⟨isDanger_size _, size_ne_dup _⟩
      · rw [if_neg hs] at hw
        simp at hw
    · obtain ⟨pr, hpr, heq⟩ := List.mem_filterMap.mp hw
      have hw2 : w = patternWarnStr pr.2 := by
        rcases Classical.em (env.regexTest pr.1 mainJs = true) with ht | ht
        · rw [if_pos ht] at heq
          exact (Option.some.injEq _ _ ▸ heq).symm
        · rw [if_neg ht] at heq
          exact absurd heq (by simp)
      subst hw2
      simp [DANGEROUS_PATTERNS] at hpr
      rcases hpr with h | h | h | h | h <;>
        rw [show pr.2 = _ from congrArg Prod.snd h] <;> exact ⟨by decide, by decide⟩

theorem mcDelta_dw_prop (env : JsEnv) (sub : Submission) (m : Manifest) :
    ∀ w ∈ (manifestChecksDelta env sub m).dw, w ≠ dupWarnStr := by
  intro w hw
  by_cases h : manifestMissingFields m = []
  · rw [mcDelta_dw_eq env sub m h] at hw
    rcases List.mem_append.mp hw with hw | hw
    · exact dangerDelta_dw_nodup m w hw
    · rcases List.mem_append.mp hw with hw | hw
      · exact (helpUrlDelta_dw_prop m w hw).2
      · rcases List.mem_append.mp hw with hw | hw
        · exact (categoryDelta_dw_prop m w hw).2
        · rcases List.mem_append.mp hw with hw | hw
          · exact (countDelta_dw_prop m w hw).2
          · exact (securityDelta_dw_prop env sub m w hw).2
  · simp only [manifestChecksDelta] at hw
    rw [if_pos (by simp [h])] at hw
    simp [dOfCheck] at hw

theorem fmDelta_dw_nodup (env : JsEnv) (sub : Submission) :
    ∀ w ∈ (fetchManifestDelta env sub).dw, w ≠ dupWarnStr := by
  intro w hw
  unfold fetchManifestDelta at hw
  cases hf : fetchFromGitHub env.fetch (jsStr sub.repo) "manifest.json" "main" with
  | error e =>
    rw [hf] at hw
    simp [dOfCheck] at hw
  | ok text =>
    rw [hf] at hw
    simp only [] at hw
    cases hp : env.parseManifest text with
    | error msg =>
      rw [hp] at hw
      simp [dOfCheck] at hw
    | ok m =>
      rw [hp] at hw
      simp only [dComp, List.nil_append] at hw
      exact mcDelta_dw_prop env sub m w hw

theorem fmDelta_dc_head (env : JsEnv) (sub : Submission) :
    ∃ b d t, (fetchManifestDelta env sub).dc = ⟨"Repo accessible", b, d⟩ :: t := by
  unfold fetchManifestDelta
  cases hf : fetchFromGitHub env.fetch (jsStr sub.repo) "manifest.json" "main" with
  | error e => exact ⟨false, some e.message, [], rfl⟩
  | ok text =>
    simp only []
    cases hp : env.parseManifest text with
    | error msg => exact ⟨false, some msg, [], rfl⟩
    | ok m =>
      refine ⟨true, none, ⟨"Manifest found", true, none⟩ :: (manifestChecksDelta env sub m).dc, ?_⟩
      simp [dComp]

/-! ## C8 — one combined dangerous-permission warning -/

/-- C8: for every manifest that reaches the advisory checks (submission parsed,
required fields present, identifier valid, manifest fetched, parsed, and with
all required manifest fields), if its declared permission list contains at
least one DANGEROUS permission then the final warning list contains exactly one
dangerous-permission warning, namely the single combined warning listing all
dangerous permissions used — not one warning per permission. -/
theorem c8_dangerous_permission_warning (env : JsEnv) (filename : String) (sub : Submission)
    (dirFiles : List DirFile) (text : String) (m : Manifest)
    (hmiss : submissionMissingFields sub = [])
    (hid : isValidPluginId (jsStr sub.id) = true)
    (hfetch : fetchFromGitHub env.fetch (jsStr sub.repo) "manifest.json" "main" = .ok text)
    (hparse : env.parseManifest text = .ok m)
    (hman : manifestMissingFields m = [])
    (hdang : dangerousUsed m ≠ []) :
    (validatePlugin env filename (.ok sub) dirFiles).warnings.filter isDangerWarning =
      [dangerWarnStr (dangerousUsed m)] := by
  rw [validatePlugin_reached env filename sub dirFiles hmiss hid]
  simp only [applyDelta]
  rw [List.filter_append]
  have h1 : (preFetchResult filename sub dirFiles).warnings.filter isDangerWarning = [] := by
    simp only [preFetchResult]
    split_ifs <;> simp [isDanger_dup]
  rw [h1, List.nil_append]
  unfold fetchManifestDelta
  rw [hfetch]
  simp only []
  rw [hparse]
  simp only [dComp, List.nil_append]
  rw [mcDelta_dw_eq env sub m hman]
  rw [List.filter_append, List.filter_append, List.filter_append, List.filter_append]
  have hd : (dangerDelta m).dw.filter isDangerWarning = [dangerWarnStr (dangerousUsed m)] := by
    unfold dangerDelta
    rw [if_pos hdang]
    simp [dOfWarn, isDanger_dangerWarn]
  have hh : (helpUrlDelta m).dw.filter isDangerWarning = [] :=
    List.filter_eq_nil_iff.mpr (fun w hw => by simp [(helpUrlDelta_dw_prop m w hw).1])
  have hc : (categoryDelta m).dw.filter isDangerWarning = [] :=
    List.filter_eq_nil_iff.mpr (fun w hw => by simp [(categoryDelta_dw_prop m w hw).1])
  have hcnt : (countDelta m).dw.filter isDangerWarning = [] :=
    List.filter_eq_nil_iff.mpr (fun w hw => by simp [(countDelta_dw_prop m w hw).1])
  have hsec : (securityDelta env sub m).dw.filter isDangerWarning = [] :=
    List.filter_eq_nil_iff.mpr (fun w hw => by simp [(securityDelta_dw_prop env sub m w hw).1])
  rw [hd, hh, hc, hcnt, hsec]
  simp

/-- Concrete instance of `c8_dangerous_permission_warning` on spec Example 1:
submission `{id: "com.a.b", name: "B", description: "d", author: "A", repo:
"https://github.com/a/b"}`, manifest permissions `["read:goals", "network"]` —
all blocking checks pass, and there is exactly one dangerous-permission
warning, mentioning `network`. -/
theorem c8_dangerous_permission_warning_witness :
    (validatePlugin envOk "com.a.b.json" (.ok exSub) []).warnings.filter isDangerWarning =
      [dangerWarnStr ["network"]]
    ∧ (validatePlugin envOk "com.a.b.json" (.ok exSub) []).passed = true
    ∧ dangerWarnStr ["network"] =
        "Plugin requests dangerous permissions: `network` - please document why these are needed" := by
  refine ⟨?_, by decide, by decide⟩
  have h := c8_dangerous_permission_warning envOk "com.a.b.json" exSub [] "MANIFEST" exManifest1
    (by decide) (by decide) rfl rfl (by decide) (by decide)
  simpa using h

/-! ## C3 — the duplicate check (corrected) -/

/-- C3 as amended: the duplicate check scans all `.json` files of the local
plugins directory — including, when present there, the very file of the
submission being validated — for an identical identifier (first conjunct);
the directory listing can never influence the recorded checks, the error list
or the overall flag (second conjunct: the run is unchanged versus an empty
directory on those fields); and once the pipeline reaches the duplicate check,
the duplicate warning appears exactly once when the scan matches and never
otherwise (third conjunct). -/
theorem c3_duplicate_check_amended :
    (∀ (pid : String) (files : List DirFile),
       checkDuplicate pid files = true ↔
         ∃ f ∈ files, jsEndsWith f.name ".json" = true ∧
           ∃ s, f.parsed = Except.ok s ∧ s.id = some pid)
    ∧ (∀ (env : JsEnv) (filename : String) (content : Except String Submission)
         (files : List DirFile),
         (validatePlugin env filename content files).checks =
             (validatePlugin env filename content []).checks
         ∧ (validatePlugin env filename content files).errors =
             (validatePlugin env filename content []).errors
         ∧ (validatePlugin env filename content files).passed =
             (validatePlugin env filename content []).passed)
    ∧ (∀ (env : JsEnv) (filename : String) (sub : Submission) (files : List DirFile),
         submissionMissingFields sub = [] → isValidPluginId (jsStr sub.id) = true →
         (validatePlugin env filename (.ok sub) files).warnings.count dupWarnStr =
           (if checkDuplicate (jsStr sub.id) files then 1 else 0)) := by
  refine ⟨?_, ?_, ?_⟩
  · intro pid files
    unfold checkDuplicate
    rw [List.any_eq_true]
    constructor
    · rintro ⟨f, hf, hp⟩
      obtain ⟨hmem, hjson⟩ := List.mem_filter.mp hf
      cases hfp : f.parsed with
      | error e => rw [hfp] at hp; exact absurd hp (by simp)
      | ok s =>
        rw [hfp] at hp
        exact ⟨f, hmem, hjson, s, hfp, of_decide_eq_true hp⟩
    · rintro ⟨f, hmem, hjson, s, hfp, hid⟩
      refine ⟨f, List.mem_filter.mpr ⟨hmem, hjson⟩, ?_⟩
      rw [hfp]
      simp [hid]
  · intro env filename content files
    cases content with
    | error msg => exact ⟨rfl, rfl, rfl⟩
    | ok sub =>
      by_cases hmiss : submissionMissingFields sub = []
      · by_cases hid : isValidPluginId (jsStr sub.id) = true
        · rw [validatePlugin_reached env filename sub files hmiss hid,
            validatePlugin_reached env filename sub [] hmiss hid]
          refine ⟨?_, ?_, ?_⟩ <;> simp [applyDelta, preFetchResult]
        · have hid' : isValidPluginId (jsStr sub.id) = false := by
            cases h : isValidPluginId (jsStr sub.id)
            · rfl
            · exact absurd h hid
          refine ⟨?_, ?_, ?_⟩ <;> simp [validatePlugin, hmiss, hid']
      · refine ⟨?_, ?_, ?_⟩ <;> simp [validatePlugin, hmiss]
  · intro env filename sub files hmiss hid
    rw [validatePlugin_reached env filename sub files hmiss hid]
    simp only [applyDelta]
    rw [List.count_append]
    have h2 : ((fetchManifestDelta env sub).dw).count dupWarnStr = 0 :=
      List.count_eq_zero.mpr (fun hmem => (fmDelta_dw_nodup env sub _ hmem) rfl)
    rw [h2]
    simp only [preFetchResult]
    split_ifs <;> simp

/-- C3 counterexample to the claim as stated: with the plugins directory
containing only the submission's own file, there is no *other* submission with
the same identifier, yet the scan matches and the duplicate warning is
produced — the scan does not exclude the submission being validated. -/
theorem c3_duplicate_check_counterexample :
    ([selfFile].filter (fun f => f.name ≠ "com.a.b.json")) = []
    ∧ checkDuplicate "com.a.b" [selfFile] = true
    ∧ (validatePlugin envBad "com.a.b.json" (.ok exSub) [selfFile]).warnings.count dupWarnStr
        = 1 := by
  decide

/-- Concrete instance of `c3_duplicate_check_amended`: a directory with the
submission's own file yields exactly one duplicate warning; an empty directory
yields none; and the checks of the two runs coincide. -/
theorem c3_duplicate_check_amended_witness :
    (validatePlugin envBad "com.a.b.json" (.ok exSub) [selfFile]).warnings.count dupWarnStr = 1
    ∧ (validatePlugin envBad "com.a.b.json" (.ok exSub) []).warnings.count dupWarnStr = 0
    ∧ (validatePlugin envBad "com.a.b.json" (.ok exSub) [selfFile]).checks =
        (validatePlugin envBad "com.a.b.json" (.ok exSub) []).checks := by
  refine ⟨?_, ?_, ?_⟩
  · rw [c3_duplicate_check_amended.2.2 envBad "com.a.b.json" exSub [selfFile]
      (by decide) (by decide)]
    decide
  · rw [c3_duplicate_check_amended.2.2 envBad "com.a.b.json" exSub []
      (by decide) (by decide)]
    decide
  · exact (c3_duplicate_check_amended.2.1 envBad "com.a.b.json" (.ok exSub) [selfFile]).1

/-! ## C6 — filename mismatch is recorded but non-blocking -/

/-- C6: when the submission parses, has its required fields, has a valid
identifier, but its storage filename differs from `{identifier}.json`, the
result records the failed check `Filename matches ID` with detail
`expected {identifier}.json`, and the pipeline still continues: a
`Repo accessible` check is always recorded afterwards (the manifest fetch is
attempted), and the duplicate check still runs (its warning appears whenever
the scan matches). -/
theorem c6_filename_mismatch_nonblocking (env : JsEnv) (filename : String) (sub : Submission)
    (dirFiles : List DirFile)
    (hmiss : submissionMissingFields sub = [])
    (hid : isValidPluginId (jsStr sub.id) = true)
    (hfn : filename ≠ jsStr sub.id ++ ".json") :
    (⟨"Filename matches ID", false, some ("expected " ++ (jsStr sub.id ++ ".json"))⟩ : Check)
        ∈ (validatePlugin env filename (.ok sub) dirFiles).checks
    ∧ (∃ b d, (⟨"Repo accessible", b, d⟩ : Check)
        ∈ (validatePlugin env filename (.ok sub) dirFiles).checks)
    ∧ (checkDuplicate (jsStr sub.id) dirFiles = true →
        dupWarnStr ∈ (validatePlugin env filename (.ok sub) dirFiles).warnings) := by
  rw [validatePlugin_reached env filename sub dirFiles hmiss hid]
  simp only [applyDelta]
  refine ⟨?_, ?_, ?_⟩
  · apply List.mem_append_left
    simp [preFetchResult, hfn]
  · obtain ⟨b, d, t, hdc⟩ := fmDelta_dc_head env sub
    refine ⟨b, d, ?_⟩
    apply List.mem_append_right
    rw [hdc]
    exact List.mem_cons_self _ _
  · intro hdup
    apply List.mem_append_left
    simp [preFetchResult, hdup]

/-- Concrete instance of `c6_filename_mismatch_nonblocking` on spec Example 2:
filename `foo.json` with `id: "com.a.b"`. -/
theorem c6_filename_mismatch_nonblocking_witness :
    (⟨"Filename matches ID", false, some "expected com.a.b.json"⟩ : Check)
        ∈ (validatePlugin envOk "foo.json" (.ok exSub) []).checks
    ∧ ∃ b d, (⟨"Repo accessible", b, d⟩ : Check)
        ∈ (validatePlugin envOk "foo.json" (.ok exSub) []).checks := by
  have h := c6_filename_mismatch_nonblocking envOk "foo.json" exSub [] (by decide) (by decide)
    (by decide)
  exact ⟨by simpa using h.1, h.2.1⟩

/-! ## C5 — repository unreachable on both branches -/

theorem buildDirectory_errors (env : JsEnv) (files : List DirFile) :
    (buildDirectory env files).2 =
      (files.filter (fun f => jsEndsWith f.name ".json")).filterMap
        (fun f =>
          match processFile env f with
          | .error e => some ⟨f.name, e⟩
          | .ok _ => none) := by
  simp only [buildDirectory]
  rw [buildDirectory_loop]
  simp

/-- C5: when the submission reaches the manifest fetch but the repository
answers non-ok on both the `main` and `master` raw URLs, the validator's
result has no manifest, its checks are exactly the first five (so no
manifest-dependent check ran), the last check is the failed `Repo accessible`
check carrying the fallback response's status, and the overall flag is false;
and the builder turns the same submission into an entry of its error list
(never an entry of the directory). -/
theorem c5_unreachable_repo (env : JsEnv) (filename : String) (sub : Submission)
    (dirFiles : List DirFile) (url o rep : String)
    (hmiss : submissionMissingFields sub = [])
    (hid : isValidPluginId (jsStr sub.id) = true)
    (hrepo : sub.repo = some url)
    (hp : parseGitHubUrl url = some (o, rep))
    (hm1 : (env.fetch (rawUrl o rep "main" "manifest.json")).ok = false)
    (hm2 : (env.fetch (rawUrl o rep "master" "manifest.json")).ok = false) :
    ((validatePlugin env filename (.ok sub) dirFiles).manifest = none
    ∧ (validatePlugin env filename (.ok sub) dirFiles).checks.map (fun c => c.name) =
        ["Valid JSON", "Required fields", "Plugin ID format", "Filename matches ID",
         "Repo accessible"]
    ∧ (validatePlugin env filename (.ok sub) dirFiles).checks.getLast? =
        some ⟨"Repo accessible", false,
          some (FetchErr.message (.httpError "manifest.json"
            (env.fetch (rawUrl o rep "master" "manifest.json")).status))⟩
    ∧ (validatePlugin env filename (.ok sub) dirFiles).passed = false)
    ∧ (∀ fname : String,
        processFile env ⟨fname, .ok sub⟩ =
          .error ("Failed to fetch manifest: "
            ++ toString (env.fetch (rawUrl o rep "master" "manifest.json")).status)
        ∧ (processFile env ⟨fname, .ok sub⟩).toOption = none
        ∧ ∀ files : List DirFile, (⟨fname, .ok sub⟩ : DirFile) ∈ files →
            jsEndsWith fname ".json" = true →
            (⟨fname, "Failed to fetch manifest: "
              ++ toString (env.fetch (rawUrl o rep "master" "manifest.json")).status⟩ : BuildError)
              ∈ (buildDirectory env files).2) := by
  have hjs : jsStr sub.repo = url := by rw [hrepo]; rfl
  have hfetch : fetchFromGitHub env.fetch (jsStr sub.repo) "manifest.json" "main" =
      .error (.httpError "manifest.json"
        (env.fetch (rawUrl o rep "master" "manifest.json")).status) := by
    rw [hjs]
    simp [fetchFromGitHub, hp, hm1, hm2]
  have hfm : ∀ fname : String, processFile env ⟨fname, .ok sub⟩ =
      .error ("Failed to fetch manifest: "
        ++ toString (env.fetch (rawUrl o rep "master" "manifest.json")).status) := by
    intro fname
    simp only [processFile]
    rw [hrepo]
    simp only []
    simp [fetchManifest, hp, hm1, hm2]
  constructor
  · rw [validatePlugin_reached env filename sub dirFiles hmiss hid]
    have hdelta : fetchManifestDelta env sub =
        dOfCheck "Repo accessible" false
          (some (FetchErr.message (.httpError "manifest.json"
            (env.fetch (rawUrl o rep "master" "manifest.json")).status))) := by
      unfold fetchManifestDelta
      rw [hfetch]
    rw [hdelta]
    refine ⟨by simp [applyDelta, dOfCheck, preFetchResult], ?_,
      by simp [applyDelta, dOfCheck, preFetchResult, List.getLast?_concat],
      by simp [applyDelta, dOfCheck]⟩
    simp only [applyDelta, dOfCheck, preFetchResult, List.map_append]
    split_ifs <;> simp
  · intro fname
    refine ⟨hfm fname, by rw [hfm fname]; rfl, ?_⟩
    intro files hmem hjson
    rw [buildDirectory_errors]
    apply List.mem_filterMap.mpr
    refine ⟨⟨fname, .ok sub⟩, List.mem_filter.mpr ⟨hmem, hjson⟩, ?_⟩
    rw [hfm fname]

/-- Concrete instance of `c5_unreachable_repo` with every fetch answering 404:
the validator's five checks, the absent manifest, the failed flag, and the
builder's error record. -/
theorem c5_unreachable_repo_witness :
    (validatePlugin envBad "com.a.b.json" (.ok exSub) []).manifest = none
    ∧ (validatePlugin envBad "com.a.b.json" (.ok exSub) []).checks.map (fun c => c.name) =
        ["Valid JSON", "Required fields", "Plugin ID format", "Filename matches ID",
         "Repo accessible"]
    ∧ (validatePlugin envBad "com.a.b.json" (.ok exSub) []).passed = false
    ∧ (⟨"com.a.b.json", "Failed to fetch manifest: 404"⟩ : BuildError)
        ∈ (buildDirectory envBad [selfFile]).2 := by
  have h := c5_unreachable_repo envBad "com.a.b.json" exSub [] "https://github.com/a/b" "a" "b"
    (by decide) (by decide) rfl (by decide) rfl rfl
  refine ⟨h.1.1, h.1.2.1, h.1.2.2.2, ?_⟩
  have h2 := (h.2 "com.a.b.json").2.2 [selfFile] (by simp [selfFile]) (by decide)
  simpa using h2
